import Mathlib

/-!
Verification development for the hoofoot scraping service
(src/scraper.py, src/main.py).

Python strings are modelled as Lean `String` (sequences of Unicode code
points), Python dicts either as insertion-ordered association lists (when
iteration order matters) or as `String → Option String` maps (when only
lookup is used).  Network fetches (pycurl / requests) and the HTML parser
(BeautifulSoup) are external collaborators and are passed in as oracle
parameters; every piece of logic written in the repository itself is
translated concretely.  All recursion is structural (bounded by explicit
fuel where Python loops consume a shrinking string) so that every
definition evaluates by `rfl` / `decide`.
-/

/-- Characters matched by Python's `\s` regex class and stripped by
`str.strip()`, restricted to the ASCII range (the site's documents are
ASCII where whitespace matters). -/
def pyIsSpaceB (c : Char) : Bool :=
  c = ' ' || c = '\t' || c = '\n' || c = '\r' || c = '\x0b' || c = '\x0c'

/-- Python `str.strip()` on a character list. -/
def pyStripL (l : List Char) : List Char :=
  ((l.dropWhile pyIsSpaceB).reverse.dropWhile pyIsSpaceB).reverse

/-- Python `str.strip()`. -/
def pyStripS (s : String) : String := ⟨pyStripL s.data⟩

/-- `s.startswith(p)` (Python) / `s.startsWith p`. -/
def strStartsWith (s p : String) : Bool := p.data.isPrefixOf s.data

/-- `s.endswith(p)` (Python). -/
def strEndsWith (s p : String) : Bool := p.data.isSuffixOf s.data

/-- Leftmost occurrence of `pat` inside `l`: returns the part strictly
before the occurrence and the part strictly after it. -/
def subFind (pat : List Char) : List Char → Option (List Char × List Char)
  | [] => if pat.isEmpty then some ([], []) else none
  | c :: t =>
    if pat.isPrefixOf (c :: t) then some ([], (c :: t).drop pat.length)
    else (subFind pat t).map (fun pq => (c :: pq.1, pq.2))

/-- Python's substring test `needle in hay`. -/
def strContains (hay needle : String) : Bool := (subFind needle.data hay.data).isSome

/-- One step of `str.split(sep)`: fuelled so the recursion is structural;
fuel `l.length` always suffices because each found separator consumes at
least one character. -/
def splitOnSubGo (sep : List Char) : Nat → List Char → List (List Char)
  | 0, l => [l]
  | fuel + 1, l =>
    match subFind sep l with
    | none => [l]
    | some (pre, post) => pre :: splitOnSubGo sep fuel post

/-- Python `s.split(sep)` for a non-empty separator (all occurrences,
empty pieces kept). -/
def splitOnSub (sep l : List Char) : List (List Char) :=
  if sep.isEmpty then [l] else splitOnSubGo sep l.length l

/-- Python `s.replace(old, new)` (all occurrences, left to right). -/
def pyReplaceAll (s old new : String) : String :=
  ⟨List.intercalate new.data (splitOnSub old.data s.data)⟩

/-- Python `s.replace(old, new, 1)`: replace only the leftmost occurrence. -/
def replaceFirstL (pat rep : List Char) : List Char → List Char
  | [] => []
  | c :: t =>
    if pat.isPrefixOf (c :: t) then rep ++ (c :: t).drop pat.length
    else c :: replaceFirstL pat rep t

/-- Python `s.split(sep, 1)` restricted to the first component pair; `none`
when the separator does not occur. -/
def splitFirstOn (sep : String) (s : String) : Option (String × String) :=
  (subFind sep.data s.data).map (fun pq => (⟨pq.1⟩, ⟨pq.2⟩))

/-- Everything before the first occurrence of `sep` (Python
`s.split(sep)[0]`). -/
def takeBeforeFirst (sep : String) (s : String) : String :=
  match subFind sep.data s.data with
  | some (pre, _) => ⟨pre⟩
  | none => s

/-- Python `s.split()` (split on whitespace runs, no empty pieces). -/
def splitWSL (l : List Char) : List (List Char) :=
  let f : Char → List Char × List (List Char) → List Char × List (List Char) :=
    fun c acc =>
      if pyIsSpaceB c then ([], if acc.1.isEmpty then acc.2 else acc.1 :: acc.2)
      else (c :: acc.1, acc.2)
  let r := l.foldr f ([], [])
  if r.1.isEmpty then r.2 else r.1 :: r.2

/-- Python `s.split(ch)` for a single-character separator (empty pieces
kept). -/
def splitCharL (sep : Char) (l : List Char) : List (List Char) :=
  let f : Char → List Char × List (List Char) → List Char × List (List Char) :=
    fun c acc => if c = sep then ([], acc.1 :: acc.2) else (c :: acc.1, acc.2)
  let r := l.foldr f ([], [])
  r.1 :: r.2

/-- Number of characters, Python `len`. -/
def strLen (s : String) : Nat := s.data.length

/-- The single-quote character, used heavily by the embed-page patterns. -/
def squote : Char := Char.ofNat 39

/-- The opening-brace character appearing in the stream-source patterns. -/
def lbrace : Char := Char.ofNat 123

/-- The closing-brace character appearing in the stream-source patterns. -/
def rbrace : Char := Char.ofNat 125

/-- The double-quote character. -/
def dquote : Char := Char.ofNat 34

-- ------------------------------------------------------------------
-- scraper.py: normalize_string
-- ------------------------------------------------------------------

/-- Models `unicodedata.normalize('NFD', s).encode('ascii', 'ignore')`
character by character: ASCII characters pass through, accented Latin
letters with a canonical decomposition reduce to their base letter (the
combining mark is dropped by the ascii encode), and all remaining
non-ASCII characters (including non-decomposable ones such as ß or ø)
are dropped.  The table covers the Latin letters that occur in the
site's team names and logo catalog. -/
def asciiFold (c : Char) : List Char :=
  if c.toNat < 128 then [c]
  else
    match c with
    | 'à' | 'á' | 'â' | 'ã' | 'ä' | 'å' | 'ā' | 'ă' | 'ą' => ['a']
    | 'À' | 'Á' | 'Â' | 'Ã' | 'Ä' | 'Å' | 'Ā' | 'Ă' | 'Ą' => ['A']
    | 'è' | 'é' | 'ê' | 'ë' | 'ē' | 'ĕ' | 'ė' | 'ę' | 'ě' => ['e']
    | 'È' | 'É' | 'Ê' | 'Ë' | 'Ē' | 'Ĕ' | 'Ė' | 'Ę' | 'Ě' => ['E']
    | 'ì' | 'í' | 'î' | 'ï' | 'ĩ' | 'ī' | 'ĭ' | 'į' => ['i']
    | 'Ì' | 'Í' | 'Î' | 'Ï' | 'Ĩ' | 'Ī' | 'Ĭ' | 'Į' => ['I']
    | 'ò' | 'ó' | 'ô' | 'õ' | 'ö' | 'ō' | 'ŏ' | 'ő' => ['o']
    | 'Ò' | 'Ó' | 'Ô' | 'Õ' | 'Ö' | 'Ō' | 'Ŏ' | 'Ő' => ['O']
    | 'ù' | 'ú' | 'û' | 'ü' | 'ũ' | 'ū' | 'ŭ' | 'ů' | 'ű' => ['u']
    | 'Ù' | 'Ú' | 'Û' | 'Ü' | 'Ũ' | 'Ū' | 'Ŭ' | 'Ů' | 'Ű' => ['U']
    | 'ý' | 'ÿ' | 'ŷ' => ['y']
    | 'Ý' | 'Ŷ' => ['Y']
    | 'ñ' | 'ń' | 'ņ' | 'ň' => ['n']
    | 'Ñ' | 'Ń' | 'Ņ' | 'Ň' => ['N']
    | 'ç' | 'ć' | 'ĉ' | 'č' => ['c']
    | 'Ç' | 'Ć' | 'Ĉ' | 'Č' => ['C']
    | 'š' | 'ś' | 'ş' => ['s']
    | 'Š' | 'Ś' | 'Ş' => ['S']
    | 'ž' | 'ź' | 'ż' => ['z']
    | 'Ž' | 'Ź' | 'Ż' => ['Z']
    | 'ř' | 'ŕ' => ['r']
    | 'Ř' | 'Ŕ' => ['R']
    | 'ť' | 'ţ' => ['t']
    | 'Ť' | 'Ţ' => ['T']
    | 'ď' => ['d']
    | 'Ď' => ['D']
    | 'ľ' | 'ĺ' | 'ļ' => ['l']
    | 'Ľ' | 'Ĺ' | 'Ļ' => ['L']
    | 'ĝ' | 'ğ' | 'ġ' | 'ģ' => ['g']
    | 'Ĝ' | 'Ğ' | 'Ġ' | 'Ģ' => ['G']
    | _ => []

/-- Keep exactly the characters the regex `[^a-z0-9\s]` in
`normalize_string` does not delete (the input is already lower-cased
ASCII at that point). -/
def keepNormChar (c : Char) : Bool :=
  ('a' ≤ c && c ≤ 'z') || ('0' ≤ c && c ≤ '9') || pyIsSpaceB c

/-- scraper.py `normalize_string`: strip accents (NFD + ascii-ignore),
lower-case, delete everything but `a-z0-9` and whitespace, then strip. -/
def normalize_string (s : String) : String :=
  if s = "" then ""
  else
    let l := s.data.flatMap asciiFold
    let l := l.map Char.toLower
    let l := l.filter keepNormChar
    ⟨pyStripL l⟩

/-- scraper.py `normalize_team_name` (a thin wrapper). -/
def normalize_team_name (s : String) : String := normalize_string s

-- ------------------------------------------------------------------
-- scraper.py: KNOWN_ALIASES
-- ------------------------------------------------------------------

/-- scraper.py `KNOWN_ALIASES`, in source order ("match feed name" →
canonical logo name).  The key written `m\x27gladbach` carries the
apostrophe of the source literal. -/
def KNOWN_ALIASES : List (String × String) :=
  [("wolves", "wolverhampton wanderers"),
   ("spurs", "tottenham hotspur"),
   ("man utd", "manchester united"),
   ("man city", "manchester city"),
   ("m\x27gladbach", "borussia monchengladbach"),
   ("mgladbach", "borussia monchengladbach"),
   ("gladbach", "borussia monchengladbach"),
   ("mainz", "mainz 05"),
   ("schalke", "schalke 04"),
   ("qarabag", "qarabag fk"),
   ("malmo ff", "malmo"),
   ("ferencvaros", "ferencvarosi"),
   ("psg", "paris saint-germain"),
   ("sporting cp", "sporting"),
   ("ac milan", "milan"),
   ("inter milan", "inter"),
   ("inter", "inter"),
   ("atm", "atletico madrid")]

-- ------------------------------------------------------------------
-- scraper.py: find_logo_url and its stages
-- ------------------------------------------------------------------

/-- The `garbage` token list of `get_core_name` inside `find_logo_url`. -/
def coreGarbage : List String :=
  [" fc", " fk", " sc", " ff", " tc", " as", " cf", " sv", " sk", " sp", " cd"]

/-- `get_core_name` inside scraper.py `find_logo_url`: for each garbage
token in order, first chop it off the end if it is a suffix, then chop
`token.strip() + " "` off the front if it is a prefix of the updated
string; finally strip. -/
def get_core_name (name : String) : String :=
  pyStripS <| coreGarbage.foldl
    (fun core g =>
      let core :=
        if strEndsWith core g then ⟨core.data.take (core.data.length - g.data.length)⟩ else core
      let gs := pyStripS g ++ " "
      if strStartsWith core gs then ⟨core.data.drop gs.data.length⟩ else core)
    name

/-- A parsed logo-catalog entry: the filename key of the logos dict, the
normalized description used for matching, and the logo URL. -/
structure LogoEntry where
  filename : String
  search_key : String
  url : String
deriving DecidableEq, Repr

/-- The catalog-scan stage of scraper.py `find_logo_url` (the loop over
`logos.items()`): exact equality of the core name with an entry's search
key wins; otherwise, when the core name is longer than 3 characters,
the core name being a substring of the search key wins; first winning
entry in catalog order decides. -/
def catalog_scan (core : String) : List LogoEntry → Option String
  | [] => none
  | e :: rest =>
    if core = e.search_key then some e.url
    else if 3 < strLen core then
      if strContains e.search_key core then some e.url
      else catalog_scan core rest
    else catalog_scan core rest

/-- Steps 4–7 of scraper.py `find_logo_url`, operating on the (possibly
alias-substituted) `target_search_name`: core-name reduction, the two
filename guesses, the catalog scan, then the two fuzzy attempts.
`closeO` is the external `difflib.get_close_matches(_, _, n=1, cutoff=0.85)`
collaborator.  In the source the catalog scan and the `candidates` list
are built by one loop; because the loop returns as soon as it wins,
`candidates` is consulted only when it holds every search key, which is
how it is written here.  The `missing_teams` set only feeds logging
(`collect_missing_teams`) and is represented by the `""` return. -/
def find_logo_rest (closeO : String → List String → List String)
    (target : String) (logos : List LogoEntry) : String :=
  let team_core := get_core_name target
  let fname_guess := pyReplaceAll target " " "-"
  match logos.find? (fun e => e.filename == fname_guess) with
  | some e => e.url
  | none =>
    let core_guess := pyReplaceAll team_core " " "-"
    match logos.find? (fun e => e.filename == core_guess) with
    | some e => e.url
    | none =>
      match catalog_scan team_core logos with
      | some u => u
      | none =>
        let candidates := logos.map (fun e => e.search_key)
        let a1 : Option String :=
          match closeO target candidates with
          | best :: _ => (logos.find? (fun e : LogoEntry => e.search_key == best)).map LogoEntry.url
          | [] => none
        match a1 with
        | some u => u
        | none =>
          let a2 : Option String :=
            match closeO team_core candidates with
            | best :: _ => (logos.find? (fun e : LogoEntry => e.search_key == best)).map LogoEntry.url
            | [] => none
          match a2 with
          | some u => u
          | none => ""

/-- scraper.py `find_logo_url`: normalize the team name, try the manual
override map, try the internal alias table (re-checking the override map
with the substituted name), then fall through to `find_logo_rest`.
`league` is accepted and unused exactly as in the source. -/
def find_logo_url (closeO : String → List String → List String)
    (team_name league : String) (logos : List LogoEntry)
    (manual_logos : String → Option String) : String :=
  let _ := league
  let raw := normalize_string team_name
  match manual_logos raw with
  | some u => u
  | none =>
    match List.lookup raw KNOWN_ALIASES with
    | some canon =>
      let target := normalize_string canon
      match manual_logos target with
      | some u => u
      | none => find_logo_rest closeO target logos
    | none => find_logo_rest closeO raw logos

-- ------------------------------------------------------------------
-- scraper.py: stream extraction from the embed page
-- ------------------------------------------------------------------

/-- Consume an exact literal, returning the rest of the input. -/
def litP (lit l : List Char) : Option (List Char) :=
  if lit.isPrefixOf l then some (l.drop lit.length) else none

/-- Greedy whitespace skipping, the regex piece written as backslash-s-star;
the tokens that follow it in every pattern are non-whitespace, so greedy
matching is deterministic. -/
def skipWS (l : List Char) : List Char := l.dropWhile pyIsSpaceB

/-- The shared head of the four stream-source patterns of scraper.py
`extract_m3u8_from_embed`: the keyword (`src` or `backupSrc`), optional
whitespace, a colon, an opening brace, the literal `hls`, a colon and an
opening single quote, each separated by optional whitespace. -/
def hlsHeadP (kw l : List Char) : Option (List Char) := do
  let l ← litP kw l
  let l ← litP [':'] (skipWS l)
  let l ← litP [lbrace] (skipWS l)
  let l ← litP "hls".data (skipWS l)
  let l ← litP [':'] (skipWS l)
  litP [squote] (skipWS l)

/-- The tail of the quoted absolute-URL group after the optional `s` has
been decided: `://`, then at least one non-quote character up to a
closing single quote; the captured group is the whole URL. -/
def absGroupTail (sPart l2 : List Char) : Option (List Char) :=
  match litP "://".data l2 with
  | none => none
  | some l3 =>
    if (l3.takeWhile (fun c => c ≠ squote)).isEmpty then none
    else if (l3.drop (l3.takeWhile (fun c => c ≠ squote)).length).head? = some squote then
      some ("http".data ++ sPart ++ "://".data ++ l3.takeWhile (fun c => c ≠ squote))
    else none

/-- The quoted absolute-URL group: literal `http`, an optional `s` (taken
exactly when `s://` follows, as the backtracking regex does), then the
tail. -/
def absGroupP (l : List Char) : Option (List Char) :=
  match litP "http".data l with
  | none => none
  | some l1 =>
    if "s://".data.isPrefixOf l1 then absGroupTail ['s'] (l1.drop 1)
    else absGroupTail [] l1

/-- The quoted protocol-relative group: the pattern places a literal `//`
right after the opening quote and captures only what follows it (at least
one non-quote character), then requires the closing quote. -/
def relGroupP (l : List Char) : Option (List Char) := do
  let l1 ← litP "//".data l
  let cap := l1.takeWhile (fun c => c ≠ squote)
  if cap.isEmpty then none
  else if (l1.drop cap.length).head? = some squote then some cap
  else none

/-- `re.search`: try the position matcher at every index, left to right,
returning the first success (our patterns never match the empty string,
so the end-of-input position is irrelevant). -/
def searchAt {α : Type} (p : List Char → Option α) : List Char → Option α
  | [] => p []
  | c :: t =>
    match p (c :: t) with
    | some r => some r
    | none => searchAt p t

/-- The first match of one full stream-source pattern (keyword head plus
URL group) anywhere in the document. -/
def patternSearch (kw : List Char) (rel : Bool) (html : String) : Option String :=
  (searchAt (fun l => (hlsHeadP kw l).bind (if rel then relGroupP else absGroupP))
    html.data).map (fun g => (⟨g⟩ : String))

/-- The coercion scraper.py applies to each matched URL: protocol-relative
matches get `https:` prepended; then any URL not already starting with
`https://` has its first `https:` occurrence rewritten to `https://`. -/
def coerceStreamUrl (rel : Bool) (g : String) : String :=
  let url := if rel then "https:" ++ g else g
  if strStartsWith url "https://" then url
  else ⟨replaceFirstL "https:".data "https://".data url.data⟩

/-- The ordered pattern table of scraper.py `extract_m3u8_from_embed`:
primary absolute, primary protocol-relative, backup absolute, backup
protocol-relative (the boolean is the `add_https` flag). -/
def streamPatterns : List ((List Char) × Bool) :=
  [("src".data, false), ("src".data, true),
   ("backupSrc".data, false), ("backupSrc".data, true)]

/-- scraper.py `extract_m3u8_from_embed`: try the four fixed patterns in
order, keep the first match of every pattern that matches, coerce each,
and return `none` when no pattern matched. -/
def extract_m3u8_from_embed (embed_html : String) : Option (List String) :=
  let urls := streamPatterns.filterMap
    (fun p => (patternSearch p.1 p.2 embed_html).map (coerceStreamUrl p.2))
  if urls.isEmpty then none else some urls

-- ------------------------------------------------------------------
-- scraper.py: extract_score
-- ------------------------------------------------------------------

/-- Skip to just past the first `>` character, the tail of one markup-tag
match. -/
def afterGt : List Char → Option (List Char)
  | [] => none
  | c :: t => if c = '>' then some t else afterGt t

/-- The remainder after one tag match starting right after a `<`: the regex
requires at least one non-`>` character before the closing `>`. -/
def dropTag : List Char → Option (List Char)
  | [] => none
  | c :: t => if c = '>' then none else afterGt t

/-- Fuelled engine for the tag-stripping substitution (regex
`<` one-or-more-non-`>` `>` replaced by nothing, leftmost and
non-overlapping).  Fuel `l.length` suffices: every consumed tag removes at
least three characters and every other step removes one. -/
def stripTagsGo : Nat → List Char → List Char
  | 0, l => l
  | _ + 1, [] => []
  | fuel + 1, c :: t =>
    if c = '<' then
      match dropTag t with
      | some r => stripTagsGo fuel r
      | none => c :: stripTagsGo fuel t
    else c :: stripTagsGo fuel t

/-- The `re.sub` of scraper.py `extract_score` that deletes markup tags. -/
def stripTags (l : List Char) : List Char := stripTagsGo l.length l

/-- Decimal digit run to a number. -/
def digitsToNat (ds : List Char) : Nat :=
  ds.foldl (fun n c => 10 * n + (c.toNat - 48)) 0

/-- The literal head of the inline-score pattern: the text
`document.querySelector(`, a quoted `#bts`, then `).innerHTML`. -/
def scoreLit : List Char :=
  "document.querySelector(".data ++ [squote] ++ "#bts".data ++ [squote] ++ ").innerHTML".data

/-- One position of the inline-score pattern: the literal head, `=` between
optional whitespace, an opening quote, then two digit runs separated by a
colon (no closing quote is required by the pattern). -/
def scorePatAt (l : List Char) : Option (Nat × Nat) := do
  let l ← litP scoreLit l
  let l ← litP ['='] (skipWS l)
  let l ← litP [squote] (skipWS l)
  let ds1 := l.takeWhile Char.isDigit
  if ds1.isEmpty then none
  else do
    let l ← litP [':'] (l.drop ds1.length)
    let ds2 := l.takeWhile Char.isDigit
    if ds2.isEmpty then none
    else some (digitsToNat ds1, digitsToNat ds2)

/-- scraper.py `extract_score`: strip markup, search the inline-score
pattern, and return the pair of scores (both absent when the pattern is
not found). -/
def extract_score (detail_html : String) : Option Nat × Option Nat :=
  match searchAt scorePatAt (stripTags detail_html.data) with
  | some ab => (some ab.1, some ab.2)
  | none => (none, none)

-- ------------------------------------------------------------------
-- URL helpers and the listing / detail page models
-- ------------------------------------------------------------------

/-- The fixed site base of both modules. -/
def BASE : String := "https://hoofoot.com/"

/-- A character allowed after the first letter of a URL scheme
(urllib's scheme character set: alphanumerics, plus, minus, dot). -/
def schemeChar (c : Char) : Bool := c.isAlphanum || c = '+' || c = '-' || c = '.'

/-- Models the scheme detection of urllib.parse: when the text before the
first colon is an ASCII letter followed by scheme characters, the target
carries its own scheme; return it lower-cased together with the
remainder after the colon. -/
def schemeSplit (rel : String) : Option (String × String) :=
  match subFind [':'] rel.data with
  | none => none
  | some (pre, post) =>
    match pre with
    | [] => none
    | c :: rest =>
      if c.isAlpha && rest.all schemeChar then
        some (⟨(c :: rest).map Char.toLower⟩, ⟨post⟩)
      else none

/-- Relative-path joining against the fixed base: the base's path is the
root, so a root-relative path attaches to the host and anything else
attaches under the root.  (Dot segments, which urllib would resolve
away, are left as-is; this affects only the exact path text, never the
scheme or host of the result.) -/
def joinPath (p : String) : String :=
  if p = "" then BASE
  else if strStartsWith p "/" then "https://hoofoot.com" ++ p
  else "https://hoofoot.com/" ++ p

/-- Models `urllib.parse.urljoin(BASE, rel)` (urllib is an external
collaborator): an empty target yields the base; a target carrying its
own scheme other than `https` (e.g. `javascript:`, `mailto:`, `http:`)
is returned unchanged; an `https`-schemed target keeps its own netloc
when it has one (the scheme lower-cased) and is otherwise joined like a
schemeless target; a protocol-relative target inherits the base's
scheme; everything else is joined against the base. -/
def urljoin_base (rel : String) : String :=
  if rel = "" then BASE
  else
    match schemeSplit rel with
    | some sr =>
      if sr.1 ≠ "https" then rel
      else if strStartsWith sr.2 "//" then "https:" ++ sr.2
      else joinPath sr.2
    | none =>
      if strStartsWith rel "//" then "https:" ++ rel
      else joinPath rel

/-- scraper.py `normalize_url`: `None` for an empty source; otherwise strip,
then prefix `https:` to protocol-relative sources, join root-relative and
non-`http`-prefixed sources to the base, and pass the rest through. -/
def normalize_url (src : String) : Option String :=
  if src = "" then none
  else if strStartsWith (pyStripS src) "//" then some ("https:" ++ pyStripS src)
  else if strStartsWith (pyStripS src) "/" then some (urljoin_base (pyStripS src))
  else if !strStartsWith (pyStripS src) "http" then some (urljoin_base (pyStripS src))
  else some (pyStripS src)

/-- main.py `normalize_url`: the same cascade without the strip. -/
def normalize_url_main (src : String) : Option String :=
  if src = "" then none
  else if strStartsWith src "//" then some ("https:" ++ src)
  else if strStartsWith src "/" then some (urljoin_base src)
  else if !strStartsWith src "http" then some (urljoin_base src)
  else some src

/-- The parts of a listing-page `div.info` block the lister reads: the
stripped text of its first `span`, and the `src` of its first `img` that
carries one. -/
structure InfoBlock where
  spanText : Option String
  imgSrc : Option String
deriving DecidableEq, Repr

/-- One listing-page `div` container as BeautifulSoup (an external
collaborator) presents it to the lister: its `id` attribute, the stripped
text of its first truthy `h2` (which may be the empty string, e.g. a
heading holding only whitespace or empty children), the `href` of its
first link that has one, the `src` of its first image that has one, and
its first `div.info` block. -/
structure Container where
  id : Option String
  h2Text : Option String
  aHref : Option String
  imgSrc : Option String
  info : Option InfoBlock
deriving DecidableEq, Repr

/-- A parsed listing page: its containers in document order. -/
abbrev ListingDoc := List Container

/-- One fixture candidate as built by `find_matches_from_html` (both
modules): the dict with keys `title`, `url`, `image`, `date`, `league`. -/
structure Candidate where
  title : String
  url : Option String
  image : Option String
  date : Option String
  league : Option String
deriving DecidableEq, Repr

/-- The league name computed from an info-block image source containing
`/x/`: the part after the last `/x/`, with every `.jpg` removed and
underscores turned into spaces. -/
def leagueOf (src : String) : String :=
  let last := (splitOnSub "/x/".data src.data).getLastD []
  pyReplaceAll (pyReplaceAll ⟨last⟩ ".jpg" "") "_" " "

/-- The date and league read opportunistically from a container's info
block. -/
def infoDateLeague (c : Container) : Option String × Option String :=
  match c.info with
  | none => ((none : Option String), (none : Option String))
  | some i =>
    (i.spanText,
     i.imgSrc.bind (fun src =>
       if strContains src "/x/" then some (leagueOf src) else none))

/-- One container's candidate, when accepted: a heading must be present,
and the first link's target must mention `match=`; link and image URLs
are normalized. -/
def candidateOf (c : Container) : Option Candidate :=
  match c.h2Text, c.aHref with
  | some title, some href =>
    if strContains href "match=" then
      some { title := title, url := normalize_url href,
             image := c.imgSrc.bind normalize_url,
             date := (infoDateLeague c).1, league := (infoDateLeague c).2 }
    else none
  | _, _ => none

/-- The shared container loop of `find_matches_from_html` (scraper.py and
main.py behave identically here): keep containers whose id starts with
`port`, then accept the candidates. -/
def find_matches_from_doc (doc : ListingDoc) : List Candidate :=
  (doc.filter (fun c => (c.id.map (fun i => strStartsWith i "port")).getD false)).filterMap
    candidateOf

/-- scraper.py `find_matches_from_html`, with BeautifulSoup passed in as
the `parseO` collaborator. -/
def find_matches_from_html (parseO : String → ListingDoc) (html : String) : List Candidate :=
  find_matches_from_doc (parseO html)

/-- main.py `find_matches_from_html`: identical except empty input short
circuits before parsing. -/
def find_matches_from_html_main (parseO : String → ListingDoc) (html : String) :
    List Candidate :=
  if html = "" then [] else find_matches_from_doc (parseO html)

/-- A parsed match-detail page as BeautifulSoup presents it to
`extract_embed_url`: whether a `div` with id `player` exists and, if so,
the `href` of its first link (if any); plus every link `href` of the page
in document order. -/
structure DetailDoc where
  playerLink : Option (Option String)
  hrefs : List String
deriving DecidableEq, Repr

/-- `extract_embed_url` (same logic in both modules): prefer the player
container's link; otherwise the first link mentioning `embed` or
`spotlightmoment`; each joined to the base. -/
def extract_embed_url (d : DetailDoc) : Option String :=
  match d.playerLink with
  | some (some h) => some (urljoin_base h)
  | _ =>
    (d.hrefs.find? (fun h => strContains h "embed" || strContains h "spotlightmoment")).map
      urljoin_base

-- ------------------------------------------------------------------
-- scraper.py: process_match
-- ------------------------------------------------------------------

/-- The resolved-fixture dict scraper.py `process_match` returns: the input
candidate's fields plus embed URL, stream URL list and the two scores. -/
structure Resolved where
  title : String
  url : Option String
  image : Option String
  date : Option String
  league : Option String
  embed : Option String
  m3u8 : Option (List String)
  home_score : Option Nat
  away_score : Option Nat
deriving DecidableEq, Repr

/-- The all-absent result of scraper.py `process_match`, produced on a
failed detail fetch and by the catch-all `except` branch. -/
def nullResolved (m : Candidate) : Resolved :=
  { title := m.title, url := m.url, image := m.image, date := m.date, league := m.league,
    embed := none, m3u8 := none, home_score := none, away_score := none }

/-- scraper.py `process_match`, with the page fetcher and BeautifulSoup as
collaborators (`fetchO` returns the empty string on failure).  A candidate
without a URL would make the Python `fetch` raise and land in the
catch-all `except`, which returns the all-absent dict; that branch is the
`none` case here (`find_matches_from_html` in fact never produces it). -/
def process_match (fetchO : String → String) (parseO : String → DetailDoc)
    (m : Candidate) : Resolved :=
  match m.url with
  | none => nullResolved m
  | some u =>
    let m_html := fetchO u
    if m_html = "" then nullResolved m
    else
      let scores := extract_score m_html
      match extract_embed_url (parseO m_html) with
      | none =>
        { nullResolved m with home_score := scores.1, away_score := scores.2 }
      | some embed =>
        { nullResolved m with
            embed := some embed, m3u8 := extract_m3u8_from_embed (fetchO embed),
            home_score := scores.1, away_score := scores.2 }

-- ------------------------------------------------------------------
-- scraper.py: process_matches_to_json
-- ------------------------------------------------------------------

/-- The referer suffix appended to every published stream URL. -/
def referer : String := "|Referer=https://hoofootay4.spotlightmoment.com/"

/-- One side of a published match record. -/
structure TeamOut where
  name : String
  logo_url : String
  score : Option Nat
deriving DecidableEq, Repr

/-- One published match record of scraper.py (the `image` stored in the
title group is never copied into the record). -/
structure MRecord where
  home : TeamOut
  away : TeamOut
  stream_urls : List String
  date : String
  league : String
deriving DecidableEq, Repr

/-- The per-title group accumulated by scraper.py
`process_matches_to_json`. -/
structure GroupData where
  image : String
  date : String
  league : String
  streams : List String
  home_score : Option Nat
  away_score : Option Nat
deriving DecidableEq, Repr

/-- Python truthiness of the `m3u8` value: present and a non-empty list. -/
def m3u8Truthy (m : Resolved) : Bool :=
  match m.m3u8 with
  | some (_ :: _) => true
  | _ => false

/-- The stream URLs a fixture contributes: each URL cut at its first `|`,
stripped, kept only when it carries the manifest marker, and suffixed
with the fixed referer. -/
def fixtureStreams (m : Resolved) : List String :=
  (m.m3u8.getD []).filterMap (fun url =>
    let u := pyStripS (takeBeforeFirst "|" url)
    if strContains u "/manifest/0.m3u8" then some (u ++ referer) else none)

/-- The fresh group created the first time a title is seen (metadata from
that fixture, streams filled in afterwards). -/
def initGroup (m : Resolved) : GroupData :=
  { image := m.image.getD "", date := m.date.getD "", league := m.league.getD "",
    streams := [], home_score := m.home_score, away_score := m.away_score }

/-- Dict lookup on the insertion-ordered group list. -/
def lookupGroup (gs : List (String × GroupData)) (title : String) : Option GroupData :=
  (gs.find? (fun p => p.1 == title)).map Prod.snd

/-- In-place update of the (unique) entry holding `title`. -/
def updateGroup (gs : List (String × GroupData)) (title : String)
    (f : GroupData → GroupData) : List (String × GroupData) :=
  gs.map (fun p => if p.1 == title then (p.1, f p.2) else p)

/-- One iteration of the grouping loop of scraper.py
`process_matches_to_json`: fixtures with a falsy `m3u8` are skipped; a
first-seen title registers a group (insertion order preserved by
appending); the fixture's filtered streams are then appended to its
group. -/
def groupStep (gs : List (String × GroupData)) (m : Resolved) :
    List (String × GroupData) :=
  if !m3u8Truthy m then gs
  else
    let streams := fixtureStreams m
    let gs := if (lookupGroup gs m.title).isSome then gs else gs ++ [(m.title, initGroup m)]
    updateGroup gs m.title (fun g => { g with streams := g.streams ++ streams })

/-- The grouping pass over the whole batch (a Python dict iterated in
insertion order, modelled as an ordered association list). -/
def buildGroups (matches_data : List Resolved) : List (String × GroupData) :=
  matches_data.foldl groupStep []

/-- Emission of one title group: split the title at the first `v`
separator, strip both halves, resolve both logos, publish streams, date
and league. -/
def emitGroup (closeO : String → List String → List String) (logos : List LogoEntry)
    (manual_logos : String → Option String) (p : String × GroupData) : MRecord :=
  let ha :=
    match splitFirstOn " v " p.1 with
    | some q => q
    | none => (p.1, "")
  let home := pyStripS ha.1
  let away := pyStripS ha.2
  { home := { name := home,
              logo_url := find_logo_url closeO home p.2.league logos manual_logos,
              score := p.2.home_score },
    away := { name := away,
              logo_url := find_logo_url closeO away p.2.league logos manual_logos,
              score := p.2.away_score },
    stream_urls := p.2.streams, date := p.2.date, league := p.2.league }

/-- scraper.py `process_matches_to_json`: group the batch by raw title,
then emit every group whose title contains the `v` separator, in group
insertion order (`collect_missing_teams` only prints and is omitted). -/
def process_matches_to_json (closeO : String → List String → List String)
    (matches_data : List Resolved) (logos : List LogoEntry)
    (manual_logos : String → Option String) : List MRecord :=
  let groups := buildGroups matches_data
  (groups.filter (fun p => strContains p.1 " v ")).map (emitGroup closeO logos manual_logos)

-- ------------------------------------------------------------------
-- main.py: stream extraction (single URL, different patterns)
-- ------------------------------------------------------------------

/-- The protocol-relative quoted group of the two named main.py patterns:
the capture group includes the leading `//`, and the closing quote must be
followed by optional whitespace and a closing brace. -/
def relGroupCloseP (l : List Char) : Option (List Char) := do
  let l1 ← litP "//".data l
  let cap := l1.takeWhile (fun c => c ≠ squote)
  if cap.isEmpty then none
  else
    match l1.drop cap.length with
    | q :: r =>
      if q = squote then
        if (skipWS r).head? = some rbrace then some ("//".data ++ cap) else none
      else none
    | [] => none

/-- The optional scheme group of main.py's generic stream pattern. -/
def parseScheme (l : List Char) : Option (List Char × List Char) :=
  if "https:".data.isPrefixOf l then some ("https:".data, l.drop 6)
  else if "http:".data.isPrefixOf l then some ("http:".data, l.drop 5)
  else none

/-- The character class of main.py's generic stream pattern: everything
except whitespace, quotes and semicolons. -/
def m3Allowed (c : Char) : Bool :=
  !(pyIsSpaceB c || c = squote || c = dquote || c = ';')

/-- Whether a run contains `.m3u8` preceded by at least one character (the
greedy one-or-more class before the literal, with the trailing class
star swallowing the rest of the run). -/
def hasM3u8Split (run : List Char) : Bool :=
  (List.range run.length).any
    (fun j => decide (1 ≤ j) && ".m3u8".data.isPrefixOf (run.drop j))

/-- One position of main.py's generic stream pattern
(optional `http:`/`https:`, `//`, then a run of allowed characters that
contains `.m3u8` after its first character); the whole matched text is
returned.  A matched scheme that is not followed by `//` backtracks to
the empty optional group, which then fails at the scheme's first
letter. -/
def m3u8GenericAt (l : List Char) : Option (List Char) :=
  let attempt : List Char → List Char → Option (List Char) := fun sch rest =>
    if "//".data.isPrefixOf rest then
      let run := (rest.drop 2).takeWhile m3Allowed
      if hasM3u8Split run then some (sch ++ "//".data ++ run) else none
    else none
  match parseScheme l with
  | some sr => (attempt sr.1 sr.2).orElse (fun _ => attempt [] l)
  | none => attempt [] l

/-- main.py `extract_m3u8_from_embed`: empty input short-circuits; then the
first of three patterns to match anywhere wins — quoted protocol-relative
primary source, quoted protocol-relative backup source, then the generic
`.m3u8` URL pattern (protocol-relative results get `https:`
prepended). -/
def extract_m3u8_from_embed_main (embed_html : String) : Option String :=
  if embed_html = "" then none
  else
    match searchAt (fun l => (hlsHeadP "src".data l).bind relGroupCloseP) embed_html.data with
    | some u => some ("https:" ++ (⟨u⟩ : String))
    | none =>
      match searchAt (fun l => (hlsHeadP "backupSrc".data l).bind relGroupCloseP)
          embed_html.data with
      | some u => some ("https:" ++ (⟨u⟩ : String))
      | none =>
        match searchAt m3u8GenericAt embed_html.data with
        | some t =>
          let url : String := ⟨t⟩
          if strStartsWith url "//" then some ("https:" ++ url) else some url
        | none => none

-- ------------------------------------------------------------------
-- main.py: process_match, logos, aggregation
-- ------------------------------------------------------------------

/-- The resolved-fixture dict main.py `process_match` returns (no URL, no
scores, a single optional stream URL). -/
structure ResolvedMain where
  title : String
  embed : Option String
  m3u8 : Option String
  image : Option String
  date : Option String
  league : Option String
deriving DecidableEq, Repr

/-- The no-stream result of main.py `process_match` (also produced by its
catch-all `except` branch). -/
def nullResolvedMain (m : Candidate) : ResolvedMain :=
  { title := m.title, embed := none, m3u8 := none,
    image := m.image, date := m.date, league := m.league }

/-- main.py `process_match`: fetch the detail page (its `extract_embed_url`
returns `None` for empty input before parsing), then fetch the embed page
and extract a single stream URL.  A candidate without a URL would raise
inside `fetch` and land in the catch-all `except`. -/
def process_match_main (fetchO : String → String) (parseO : String → DetailDoc)
    (m : Candidate) : ResolvedMain :=
  match m.url with
  | none => nullResolvedMain m
  | some u =>
    let m_html := fetchO u
    let embed := if m_html = "" then none else extract_embed_url (parseO m_html)
    match embed with
    | none => nullResolvedMain m
    | some e =>
      { nullResolvedMain m with
          embed := some e, m3u8 := extract_m3u8_from_embed_main (fetchO e) }

/-- One position of the filename pattern of main.py
`fetch_and_parse_logos`: the literal `Filename: `, then a lazy
one-or-more of non-newline characters up to the nearest following
`.png`. -/
def fnamePatAt (l : List Char) : Option (List Char) := do
  let l1 ← litP "Filename: ".data l
  ((List.range (l1.length + 1)).find?
      (fun k => decide (1 ≤ k) && (l1.take k).all (fun c => c ≠ '\n')
        && ".png".data.isPrefixOf (l1.drop k))).map (fun k => l1.take k)

/-- One position of the URL pattern of main.py `fetch_and_parse_logos`:
`URL: `, then `http`, optional `s`, `://`, then a greedy run of at least
one non-whitespace character. -/
def urlPatAt (l : List Char) : Option (List Char) := do
  let l1 ← litP "URL: ".data l
  let l2 ← litP "http".data l1
  let (sPart, l3) :=
    if "s://".data.isPrefixOf l2 then (['s'], l2.drop 1) else (([] : List Char), l2)
  let l4 ← litP "://".data l3
  let cap := l4.takeWhile (fun c => !pyIsSpaceB c)
  if cap.isEmpty then none else some ("http".data ++ sPart ++ "://".data ++ cap)

/-- Dict assignment on an insertion-ordered association list: an existing
key keeps its position and takes the new value, a new key is appended. -/
def dictInsert (d : List (String × String)) (k v : String) : List (String × String) :=
  if (d.find? (fun p => p.1 == k)).isSome
  then d.map (fun p => if p.1 == k then (p.1, v) else p)
  else d ++ [(k, v)]

/-- The entry separator of the logo feed: thirty hyphens. -/
def logoDelim : String := "------------------------------"

/-- main.py `fetch_and_parse_logos` applied to the already-fetched feed
text (the network request is the collaborator): split on the delimiter,
keep chunks carrying both a filename and a URL, and build the
filename → URL dict. -/
def fetch_and_parse_logos_main (txt : String) : List (String × String) :=
  (splitOnSub logoDelim.data txt.data).foldl
    (fun acc chunk =>
      match searchAt fnamePatAt chunk, searchAt urlPatAt chunk with
      | some fn, some u => dictInsert acc (pyStripS ⟨fn⟩) (pyStripS ⟨u⟩)
      | _, _ => acc)
    []

/-- main.py `find_logo_url`: lower-case and strip the team name, try the
hyphenated name as a filename key, then scan the dict for a filename one
of whose hyphen-separated words equals the whole name or any of its
whitespace-separated words. -/
def find_logo_url_main (team_name : String) (logo_dict : List (String × String)) : String :=
  let team_lower := pyStripS ⟨team_name.data.map Char.toLower⟩
  let exact := pyReplaceAll team_lower " " "-"
  match logo_dict.find? (fun p => p.1 == exact) with
  | some p => p.2
  | none =>
    match logo_dict.find? (fun p =>
        let words := splitCharL '-' p.1.data
        words.contains team_lower.data
          || (splitWSL team_lower.data).any (fun w => words.contains w)) with
    | some p => p.2
    | none => ""

/-- One side of a published main.py match record (no score field). -/
structure TeamOutMain where
  name : String
  logo_url : String
deriving DecidableEq, Repr

/-- One published main.py match record.  Date and league may be null: the
grouping loop stores `match_data.get('date', '')`, and `dict.get`
returns the stored `None` because `process_match` always includes the
keys. -/
structure MRecordMain where
  home : TeamOutMain
  away : TeamOutMain
  stream_urls : List String
  date : Option String
  league : Option String
deriving DecidableEq, Repr

/-- The per-title group of main.py `process_matches_to_json`.  Only the
image is coalesced to the empty string (`match_data['image'] or ''`);
date and league keep the stored optional values. -/
structure GroupDataMain where
  image : String
  stream_urls : List String
  date : Option String
  league : Option String
deriving DecidableEq, Repr

/-- Dict lookup on main.py's insertion-ordered group list. -/
def lookupGroupMain (gs : List (String × GroupDataMain)) (title : String) :
    Option GroupDataMain :=
  (gs.find? (fun p => p.1 == title)).map Prod.snd

/-- One iteration of main.py's grouping loop: fixtures whose single stream
URL is falsy (absent or empty) are skipped; the referer-suffixed URL is
appended to the title's group (created on first sight with that
fixture's metadata).  No manifest filter exists in this module. -/
def groupStepMain (gs : List (String × GroupDataMain)) (m : ResolvedMain) :
    List (String × GroupDataMain) :=
  match m.m3u8 with
  | some url =>
    if url = "" then gs
    else
      let withUrl := url ++ referer
      let gs :=
        if (lookupGroupMain gs m.title).isSome then gs
        else gs ++ [(m.title,
          { image := m.image.getD "", stream_urls := [],
            date := m.date, league := m.league })]
      gs.map (fun p =>
        if p.1 == m.title then (p.1, { p.2 with stream_urls := p.2.stream_urls ++ [withUrl] })
        else p)
  | none => gs

/-- main.py `process_matches_to_json`: group by raw title, then emit every
group whose title holds the `v` separator. -/
def process_matches_to_json_main (matches_data : List ResolvedMain)
    (logo_dict : List (String × String)) : List MRecordMain :=
  let groups := matches_data.foldl groupStepMain []
  (groups.filter (fun p => strContains p.1 " v ")).map (fun p =>
    let ha :=
      match splitFirstOn " v " p.1 with
      | some q => q
      | none => (p.1, "")
    { home := { name := pyStripS ha.1, logo_url := find_logo_url_main ha.1 logo_dict },
      away := { name := pyStripS ha.2, logo_url := find_logo_url_main ha.2 logo_dict },
      stream_urls := p.2.stream_urls, date := p.2.date, league := p.2.league })

-- ------------------------------------------------------------------
-- main.py: MatchCache and run_scraping_job
-- ------------------------------------------------------------------

/-- The in-memory cache of main.py: the published records, the epoch
timestamp of the last successful update, and the in-flight flag.  The
`threading.Lock` the class creates is taken only inside `get` and `set`;
the sequential model here exposes exactly the fields those methods
mutate. -/
structure MatchCache where
  data : List MRecordMain
  last_updated : Nat
  is_updating : Bool
deriving DecidableEq, Repr

/-- `MatchCache.set`: store the records, stamp the time, clear the
in-flight flag. -/
def cacheSet (c : MatchCache) (records : List MRecordMain) (now : Nat) : MatchCache :=
  { c with data := records, last_updated := now, is_updating := false }

/-- main.py `run_scraping_job` as a state transformer over the cache, with
the page fetcher, the two BeautifulSoup parses, the already-fetched logo
feed text and the commit timestamp as collaborators: bail out if a
refresh is in flight; mark in flight; abort (clearing the flag, touching
nothing else) when the listing fetch returns nothing or yields no
fixtures; otherwise resolve every fixture, build the records and commit
them through `cacheSet`.  The inter-request sleeps and all logging carry
no state. -/
def run_scraping_job (fetchO : String → String) (parseListO : String → ListingDoc)
    (parseDetailO : String → DetailDoc) (logosTxt : String) (now : Nat)
    (cache : MatchCache) : MatchCache :=
  if cache.is_updating then cache
  else
    let cache := { cache with is_updating := true }
    let home_html := fetchO BASE
    if home_html = "" then { cache with is_updating := false }
    else
      let fixtures := find_matches_from_html_main parseListO home_html
      if fixtures.isEmpty then { cache with is_updating := false }
      else
        let matches_data := fixtures.map (process_match_main fetchO parseDetailO)
        let logo_dict := fetch_and_parse_logos_main logosTxt
        let final := process_matches_to_json_main matches_data logo_dict
        cacheSet cache final now

-- ------------------------------------------------------------------
-- main.py: the in-flight test-then-set, as an interleaving model
-- ------------------------------------------------------------------

/-- Program counter of one caller of `run_scraping_job`, restricted to the
single-flight prologue (main.py lines 312–316): `start` is about to read
`cache.is_updating`; `willSet` has seen it false and is about to write it;
`body` is executing the refresh body; `rejected` returned early. -/
inductive RPC where
  | start
  | willSet
  | body
  | rejected
deriving DecidableEq, Repr

/-- Two concurrent callers sharing the `is_updating` flag. -/
structure FlagSys where
  flag : Bool
  pc1 : RPC
  pc2 : RPC
deriving DecidableEq, Repr

/-- One step of one caller under the code as written: the read of
`cache.is_updating` and the write `cache.is_updating = True` are two
separate steps, because `run_scraping_job` takes no lock between them. -/
def threadStep (pc : RPC) (flag : Bool) : RPC × Bool :=
  match pc with
  | .start => if flag then (.rejected, flag) else (.willSet, flag)
  | .willSet => (.body, true)
  | .body => (.body, flag)
  | .rejected => (.rejected, flag)

/-- Run one scheduler choice: `false` steps caller 1, `true` steps
caller 2. -/
def stepSys (s : FlagSys) (t : Bool) : FlagSys :=
  if t then
    let r := threadStep s.pc2 s.flag
    { s with pc2 := r.1, flag := r.2 }
  else
    let r := threadStep s.pc1 s.flag
    { s with pc1 := r.1, flag := r.2 }

/-- Run a whole schedule from a state. -/
def runSched (s : FlagSys) (sched : List Bool) : FlagSys :=
  sched.foldl stepSys s

/-- One step of one caller under the discipline the specification demands:
the test and the set are indivisible, a single atomic check-and-set. -/
def threadStepAtomic (pc : RPC) (flag : Bool) : RPC × Bool :=
  match pc with
  | .start => if flag then (.rejected, flag) else (.body, true)
  | .willSet => (.body, true)
  | .body => (.body, flag)
  | .rejected => (.rejected, flag)

/-- Scheduler step for the atomic discipline. -/
def stepSysAtomic (s : FlagSys) (t : Bool) : FlagSys :=
  if t then
    let r := threadStepAtomic s.pc2 s.flag
    { s with pc2 := r.1, flag := r.2 }
  else
    let r := threadStepAtomic s.pc1 s.flag
    { s with pc1 := r.1, flag := r.2 }

/-- Run a whole schedule under the atomic discipline. -/
def runSchedAtomic (s : FlagSys) (sched : List Bool) : FlagSys :=
  sched.foldl stepSysAtomic s


-- ------------------------------------------------------------------
-- Claim theorems
-- ------------------------------------------------------------------

/-- C1: the claim says the test of the in-flight flag and its set are
indivisible, so at most one of two concurrent callers ever runs the
refresh body.  In the code the two are separate unlocked steps, and the
read-read-write-write interleaving drives both callers into the body;
under the atomic check-and-set the specification demands, the same
schedule rejects the second caller.  This refutes the claim against the
code while confirming it against the specified discipline. -/
theorem c1_both_callers_enter_refresh_body :
    runSched { flag := false, pc1 := .start, pc2 := .start } [false, true, false, true] =
      { flag := true, pc1 := .body, pc2 := .body } ∧
    runSchedAtomic { flag := false, pc1 := .start, pc2 := .start } [false, true, false, true] =
      { flag := true, pc1 := .body, pc2 := .rejected } :=
  ⟨rfl, rfl⟩

/-- C3: whenever the normalized team name is a key of the manual override
map, `find_logo_url` returns exactly that override's URL, for every
catalog, every league string and every behaviour of the fuzzy-matching
collaborator — the override check precedes every catalog-based stage. -/
theorem c3_manual_override_short_circuits
    (closeO : String → List String → List String) (team_name league : String)
    (logos : List LogoEntry) (manual_logos : String → Option String) (u : String)
    (h : manual_logos (normalize_string team_name) = some u) :
    find_logo_url closeO team_name league logos manual_logos = u := by
  unfold find_logo_url
  simp [h]

/-- Witness for C3 at a concrete override map, team name and (empty)
catalog. -/
theorem c3_witness :
    find_logo_url (fun _ _ => []) "Arsenal" "Premier League" []
      (fun s => if s = "arsenal" then some "https://img/a.png" else none) =
      "https://img/a.png" :=
  c3_manual_override_short_circuits _ "Arsenal" "Premier League" _ _ _ rfl

/-- C6 counterexample: the claim says a substring relationship in either
direction wins the catalog scan, but a search key that is a proper
substring of the core name does not win — the code only tests the core
name inside the search key.  Here the key `abcd` is contained in the core
name `abcde` (which is longer than 3 characters), yet the scan returns
nothing. -/
theorem c6_counterexample :
    catalog_scan "abcde" [{ filename := "f1", search_key := "abcd", url := "u1" }] = none ∧
    strContains "abcde" "abcd" = true ∧ 3 < strLen "abcde" :=
  ⟨rfl, rfl, by decide⟩

/-- C6 as amended: in the catalog scan, exact equality of the core name
with an entry's search key wins immediately; otherwise, when the core
name is longer than 3 characters, the core name being contained in the
search key (that one direction only) wins; the first entry in catalog
order satisfying either condition decides. -/
theorem c6_scan_first_entry_one_direction (core : String) (logos : List LogoEntry) :
    catalog_scan core logos =
      (logos.find? (fun e => core == e.search_key
        || (decide (3 < strLen core) && strContains e.search_key core))).map LogoEntry.url := by
  induction logos with
  | nil => rfl
  | cons e rest ih =>
    by_cases h1 : core = e.search_key
    · simp [catalog_scan, h1, List.find?]
    · have hb : (core == e.search_key) = false := by simp [h1]
      by_cases h2 : 3 < strLen core
      · by_cases h3 : strContains e.search_key core = true
        · simp [catalog_scan, h1, hb, h2, h3, List.find?]
        · simp [catalog_scan, h1, hb, h2, h3, List.find?, ih]
      · simp [catalog_scan, h1, hb, h2, List.find?, ih]

/-- C9: when a refresh pass starts (no refresh in flight) and the listing
fetch returns nothing or yields no fixtures, `run_scraping_job` leaves
the published records and the last-updated timestamp exactly as they
were and clears the in-flight flag. -/
theorem c9_failed_refresh_preserves_snapshot
    (fetchO : String → String) (parseListO : String → ListingDoc)
    (parseDetailO : String → DetailDoc) (logosTxt : String) (now : Nat)
    (cache : MatchCache) (h1 : cache.is_updating = false)
    (h2 : fetchO BASE = "" ∨ find_matches_from_html_main parseListO (fetchO BASE) = []) :
    (run_scraping_job fetchO parseListO parseDetailO logosTxt now cache).data = cache.data ∧
    (run_scraping_job fetchO parseListO parseDetailO logosTxt now cache).last_updated =
      cache.last_updated ∧
    (run_scraping_job fetchO parseListO parseDetailO logosTxt now cache).is_updating = false := by
  unfold run_scraping_job
  rcases h2 with h2 | h2
  · simp [h1, h2]
  · by_cases hf : fetchO BASE = ""
    · simp [h1, hf]
    · simp [h1, hf, h2]

/-- Witness for C9 at a concrete cache and a fetcher whose listing fetch
fails. -/
theorem c9_witness :
    (run_scraping_job (fun _ => "") (fun _ => []) (fun _ => { playerLink := none, hrefs := [] })
        "" 9 { data := [], last_updated := 3, is_updating := false }).data = [] ∧
    (run_scraping_job (fun _ => "") (fun _ => []) (fun _ => { playerLink := none, hrefs := [] })
        "" 9 { data := [], last_updated := 3, is_updating := false }).last_updated = 3 ∧
    (run_scraping_job (fun _ => "") (fun _ => []) (fun _ => { playerLink := none, hrefs := [] })
        "" 9 { data := [], last_updated := 3, is_updating := false }).is_updating = false :=
  c9_failed_refresh_preserves_snapshot _ _ _ _ _ _ rfl (Or.inl rfl)

/-- The detail page of the C4 counterexample: an inline score assignment
and nothing else (no markup tags, so tag stripping is the identity on
it). -/
def cxC4Detail : String :=
  "document.querySelector(\x27#bts\x27).innerHTML = \x272:1\x27;"

/-- The C4 counterexample fetcher: the detail page fetch succeeds, the
embed page fetch fails (empty string). -/
def cxC4Fetch : String → String := fun u => if u = "U" then cxC4Detail else ""

/-- The C4 counterexample parser: the detail page carries one link to an
embed page. -/
def cxC4Parse : String → DetailDoc :=
  fun h => if h = cxC4Detail then { playerLink := none, hrefs := ["https://e/embed"] }
           else { playerLink := none, hrefs := [] }

/-- The C4 counterexample candidate. -/
def cxC4Cand : Candidate :=
  { title := "T", url := some "U", image := none, date := none, league := none }

/-- C4 counterexample: the claim says any fetch or parse failure yields
null home and away scores, but when the detail page fetches, an embed
URL is found and the embed fetch then fails, `process_match` returns
absent streams with the scores still populated from the detail page. -/
theorem c4_counterexample :
    (process_match cxC4Fetch cxC4Parse cxC4Cand).embed = some "https://e/embed" ∧
    cxC4Fetch "https://e/embed" = "" ∧
    (process_match cxC4Fetch cxC4Parse cxC4Cand).m3u8 = none ∧
    (process_match cxC4Fetch cxC4Parse cxC4Cand).home_score = some 2 ∧
    (process_match cxC4Fetch cxC4Parse cxC4Cand).away_score = some 1 :=
  ⟨rfl, rfl, rfl, rfl, rfl⟩

/-- C4 as amended: `process_match` is total (every fetch or parse outcome
produces a resolved fixture, so one bad fixture cannot abort the batch)
and preserves the candidate's fields; a failed detail fetch yields
absent embed, streams and scores; a fetched detail page without an embed
URL returns early with absent streams while the scores come from the
detail page; and when an embed URL is found the streams come from the
embed page (absent if that fetch or extraction produces nothing) with
the scores again from the detail page — scores are nulled only when the
detail fetch itself fails. -/
theorem c4_total_and_casewise (fetchO : String → String) (parseO : String → DetailDoc)
    (m : Candidate) :
    (process_match fetchO parseO m).title = m.title ∧
    (process_match fetchO parseO m).url = m.url ∧
    (process_match fetchO parseO m).image = m.image ∧
    (process_match fetchO parseO m).date = m.date ∧
    (process_match fetchO parseO m).league = m.league ∧
    (∀ u, m.url = some u → fetchO u = "" →
      process_match fetchO parseO m = nullResolved m) ∧
    (∀ u, m.url = some u → fetchO u ≠ "" → extract_embed_url (parseO (fetchO u)) = none →
      (process_match fetchO parseO m).embed = none ∧
      (process_match fetchO parseO m).m3u8 = none ∧
      (process_match fetchO parseO m).home_score = (extract_score (fetchO u)).1 ∧
      (process_match fetchO parseO m).away_score = (extract_score (fetchO u)).2) ∧
    (∀ u e, m.url = some u → fetchO u ≠ "" → extract_embed_url (parseO (fetchO u)) = some e →
      (process_match fetchO parseO m).embed = some e ∧
      (process_match fetchO parseO m).m3u8 = extract_m3u8_from_embed (fetchO e) ∧
      (process_match fetchO parseO m).home_score = (extract_score (fetchO u)).1 ∧
      (process_match fetchO parseO m).away_score = (extract_score (fetchO u)).2) := by
  cases hu : m.url with
  | none =>
    have hr : process_match fetchO parseO m = nullResolved m := by
      simp [process_match, hu]
    refine ⟨by simp [hr, nullResolved], by simp [hr, nullResolved, hu],
      by simp [hr, nullResolved], by simp [hr, nullResolved], by simp [hr, nullResolved],
      ?_, ?_, ?_⟩
    · intro u hu2
      cases hu2
    · intro u hu2
      cases hu2
    · intro u e hu2
      cases hu2
  | some u0 =>
    by_cases hf : fetchO u0 = ""
    · have hr : process_match fetchO parseO m = nullResolved m := by
        simp [process_match, hu, hf]
      refine ⟨by simp [hr, nullResolved], by simp [hr, nullResolved, hu],
        by simp [hr, nullResolved], by simp [hr, nullResolved], by simp [hr, nullResolved],
        ?_, ?_, ?_⟩
      · intro u _ _
        exact hr
      · intro u hu2 hf2 _
        injection hu2 with hh; subst hh
        exact absurd hf hf2
      · intro u e hu2 hf2 _
        injection hu2 with hh; subst hh
        exact absurd hf hf2
    · cases he : extract_embed_url (parseO (fetchO u0)) with
      | none =>
        have hr : process_match fetchO parseO m =
            { nullResolved m with
                home_score := (extract_score (fetchO u0)).1,
                away_score := (extract_score (fetchO u0)).2 } := by
          simp [process_match, hu, hf, he]
        refine ⟨by simp [hr, nullResolved], by simp [hr, nullResolved, hu],
          by simp [hr, nullResolved], by simp [hr, nullResolved], by simp [hr, nullResolved],
          ?_, ?_, ?_⟩
        · intro u hu2 hf2
          injection hu2 with hh; subst hh
          exact absurd hf2 hf
        · intro u hu2 _ _
          injection hu2 with hh; subst hh
          exact ⟨by simp [hr, nullResolved], by simp [hr, nullResolved],
            by simp [hr, nullResolved], by simp [hr, nullResolved]⟩
        · intro u e hu2 _ he2
          injection hu2 with hh; subst hh
          rw [he] at he2; cases he2
      | some e0 =>
        have hr : process_match fetchO parseO m =
            { nullResolved m with
                embed := some e0, m3u8 := extract_m3u8_from_embed (fetchO e0),
                home_score := (extract_score (fetchO u0)).1,
                away_score := (extract_score (fetchO u0)).2 } := by
          simp [process_match, hu, hf, he]
        refine ⟨by simp [hr, nullResolved], by simp [hr, nullResolved, hu],
          by simp [hr, nullResolved], by simp [hr, nullResolved], by simp [hr, nullResolved],
          ?_, ?_, ?_⟩
        · intro u hu2 hf2
          injection hu2 with hh; subst hh
          exact absurd hf2 hf
        · intro u hu2 _ he2
          injection hu2 with hh; subst hh
          rw [he] at he2; cases he2
        · intro u e hu2 _ he2
          injection hu2 with hh; subst hh
          rw [he] at he2; injection he2 with hh2; subst hh2
          exact ⟨by simp [hr, nullResolved], by simp [hr, nullResolved],
            by simp [hr, nullResolved], by simp [hr, nullResolved]⟩

/-- The fetcher of the C4 witness: every fetch fails. -/
def cxC4FailFetch : String → String := fun _ => ""

/-- Witness for C4 at a concrete candidate whose detail fetch fails. -/
theorem c4_witness :
    process_match cxC4FailFetch cxC4Parse cxC4Cand = nullResolved cxC4Cand :=
  ((((((c4_total_and_casewise cxC4FailFetch cxC4Parse
    cxC4Cand).2).2).2).2).2).1 "U" rfl rfl

/-- A successful search comes from a successful match at some suffix. -/
lemma searchAt_some {α : Type} (p : List Char → Option α) (l : List Char) (r : α)
    (h : searchAt p l = some r) : ∃ l2, p l2 = some r := by
  induction l with
  | nil => exact ⟨[], h⟩
  | cons c t ih =>
    rw [searchAt] at h
    cases hp : p (c :: t) with
    | some r2 =>
      rw [hp] at h
      exact ⟨c :: t, hp.trans h⟩
    | none =>
      rw [hp] at h
      exact ih h

/-- Shape of the absolute-URL group's capture. -/
lemma absGroupTail_shape (sPart l2 g : List Char) (h : absGroupTail sPart l2 = some g) :
    ∃ cap, g = "http".data ++ sPart ++ "://".data ++ cap := by
  unfold absGroupTail at h
  split at h
  · cases h
  · split at h
    · cases h
    · split at h
      · injection h with hg
        exact ⟨_, hg.symm⟩
      · cases h

/-- Whatever the absolute-URL group captures starts with `https://` or
with `http://`. -/
lemma absGroupP_starts (l g : List Char) (h : absGroupP l = some g) :
    "https://".data.isPrefixOf g = true ∨ "http://".data.isPrefixOf g = true := by
  unfold absGroupP at h
  split at h
  · cases h
  · split at h
    · rcases absGroupTail_shape _ _ _ h with ⟨cap, hg⟩
      subst hg
      left
      simp [List.isPrefixOf]
    · rcases absGroupTail_shape _ _ _ h with ⟨cap, hg⟩
      subst hg
      right
      simp [List.isPrefixOf]

/-- When the needle is a prefix, first-occurrence replacement rewrites it
right at the front. -/
lemma replaceFirstL_front (pat rep l : List Char) (h : pat.isPrefixOf l = true)
    (hne : l ≠ []) :
    replaceFirstL pat rep l = rep ++ l.drop pat.length := by
  cases l with
  | nil => exact absurd rfl hne
  | cons c t => rw [replaceFirstL, if_pos h]

/-- The first-occurrence replacement of `https:` by `https://` leaves a
leading `http://` in place (the six-character needle cannot overlap that
seven-character prefix). -/
lemma replaceFirstL_keeps_http (rest : List Char) :
    replaceFirstL "https:".data "https://".data
      ('h' :: 't' :: 't' :: 'p' :: ':' :: '/' :: '/' :: rest) =
      'h' :: 't' :: 't' :: 'p' :: ':' :: '/' :: '/' ::
        replaceFirstL "https:".data "https://".data rest := by
  simp [replaceFirstL, List.isPrefixOf]

/-- Coercion of a protocol-relative capture always yields an `https://`
URL. -/
lemma coerce_rel_starts (g : String) :
    strStartsWith (coerceStreamUrl true g) "https://" = true := by
  have hc : coerceStreamUrl true g =
      if strStartsWith ("https:" ++ g) "https://" = true then "https:" ++ g
      else ⟨replaceFirstL "https:".data "https://".data ("https:" ++ g).data⟩ := rfl
  rw [hc]
  by_cases h : strStartsWith ("https:" ++ g) "https://" = true
  · rw [if_pos h]
    exact h
  · rw [if_neg h]
    have hd : ("https:" ++ g).data = "https:".data ++ g.data := String.data_append _ _
    have hpre : "https:".data.isPrefixOf ("https:".data ++ g.data) = true :=
      List.isPrefixOf_iff_prefix.mpr (List.prefix_append _ _)
    show "https://".data.isPrefixOf
      (replaceFirstL "https:".data "https://".data ("https:" ++ g).data) = true
    rw [hd, replaceFirstL_front _ _ _ hpre (by simp), List.drop_left]
    exact List.isPrefixOf_iff_prefix.mpr (List.prefix_append _ _)

/-- Coercion of an absolute capture yields an `https://` URL or leaves an
`http://` URL in place. -/
lemma coerce_abs_starts (g : String)
    (h : "https://".data.isPrefixOf g.data = true ∨ "http://".data.isPrefixOf g.data = true) :
    strStartsWith (coerceStreamUrl false g) "https://" = true ∨
    strStartsWith (coerceStreamUrl false g) "http://" = true := by
  have hc : coerceStreamUrl false g =
      if strStartsWith g "https://" = true then g
      else ⟨replaceFirstL "https:".data "https://".data g.data⟩ := rfl
  rw [hc]
  rcases h with h | h
  · have hcond : strStartsWith g "https://" = true := h
    left
    rw [if_pos hcond]
    exact hcond
  · by_cases h2 : strStartsWith g "https://" = true
    · left
      rw [if_pos h2]
      exact h2
    · right
      rw [if_neg h2]
      rcases (List.isPrefixOf_iff_prefix.mp h) with ⟨rest, hrest⟩
      show "http://".data.isPrefixOf
        (replaceFirstL "https:".data "https://".data g.data) = true
      rw [show g.data = 'h' :: 't' :: 't' :: 'p' :: ':' :: '/' :: '/' :: rest from hrest.symm]
      rw [replaceFirstL_keeps_http]
      simp [List.isPrefixOf]

/-- Length of a mapped filter over optional hits equals the number of
hits. -/
lemma length_filterMap_eq_countP {α β γ : Type} (F : α → Option β) (G : α → β → γ)
    (pats : List α) :
    (pats.filterMap (fun p => (F p).map (G p))).length =
      pats.countP (fun p => (F p).isSome) := by
  induction pats with
  | nil => rfl
  | cons p rest ih =>
    cases hF : F p <;> simp [List.filterMap_cons, hF, List.countP_cons, ih]

/-- C5 counterexample: the claim says every returned URL begins with
`https://`, but an embed page whose primary source is an `http://` URL
yields that URL unchanged — the coercion only rewrites a `https:`
occurrence, which an `http://` URL does not contain. -/
theorem c5_counterexample :
    extract_m3u8_from_embed "src:\x7bhls:\x27http://a\x27\x7d" = some ["http://a"] ∧
    strStartsWith "http://a" "https://" = false :=
  ⟨rfl, rfl⟩

/-- C5 as amended: stream extraction keeps the first match of every one of
the four ordered patterns — the result holds exactly one URL per
matching pattern, not just the first — and every URL in the returned
list is absolute: it begins with `https://`, or with `http://` when an
absolute pattern captured an `http://` source, which the coercion leaves
unchanged. -/
theorem c5_all_patterns_kept_urls_absolute (html : String) (urls : List String)
    (h : extract_m3u8_from_embed html = some urls) :
    urls ≠ [] ∧
    urls.length = streamPatterns.countP (fun p => (patternSearch p.1 p.2 html).isSome) ∧
    ∀ u ∈ urls, strStartsWith u "https://" = true ∨ strStartsWith u "http://" = true := by
  unfold extract_m3u8_from_embed at h
  by_cases he : (streamPatterns.filterMap
      (fun p => (patternSearch p.1 p.2 html).map (coerceStreamUrl p.2))).isEmpty
  · simp [he] at h
  · simp only [he, if_neg, Bool.false_eq_true, not_false_iff, if_false] at h
    injection h with hurls
    subst hurls
    refine ⟨by simpa [List.isEmpty_iff] using he,
      length_filterMap_eq_countP _ _ _, ?_⟩
    intro u hu
    rcases List.mem_filterMap.mp hu with ⟨p, hp, hpu⟩
    rcases Option.map_eq_some'.mp hpu with ⟨g, hg, hgu⟩
    subst hgu
    have hcases : p.2 = true ∨ p.2 = false := by
      cases p.2 <;> simp
    rcases hcases with h2 | h2
    · rw [h2]
      exact Or.inl (coerce_rel_starts g)
    · rw [h2]
      rw [h2] at hg
      unfold patternSearch at hg
      rcases Option.map_eq_some'.mp hg with ⟨gl, hgl, hglg⟩
      rcases searchAt_some _ _ _ hgl with ⟨l2, hl2⟩
      simp only [Bool.false_eq_true, if_false] at hl2
      rcases Option.bind_eq_some.mp hl2 with ⟨l3, _, habs⟩
      have hpre := absGroupP_starts l3 gl habs
      subst hglg
      exact coerce_abs_starts ⟨gl⟩ (by simpa using hpre)

/-- Witness for C5 at a concrete embed page carrying one primary and one
backup source. -/
theorem c5_witness :
    extract_m3u8_from_embed
      "src:\x7bhls:\x27//cdn/x\x27\x7d backupSrc:\x7bhls:\x27https://b/y\x27\x7d" =
      some ["https://cdn/x", "https://b/y"] ∧
    (strStartsWith "https://cdn/x" "https://" = true ∨
      strStartsWith "https://cdn/x" "http://" = true) :=
  ⟨rfl, (c5_all_patterns_kept_urls_absolute
    "src:\x7bhls:\x27//cdn/x\x27\x7d backupSrc:\x7bhls:\x27https://b/y\x27\x7d"
    ["https://cdn/x", "https://b/y"] rfl).2.2 "https://cdn/x" (by simp)⟩

/-- The fixtures of a batch that land in title group `T`: those with a
truthy stream list and exactly that raw title, in input order. -/
def relData (data : List Resolved) (T : String) : List Resolved :=
  data.filter (fun m => m3u8Truthy m && m.title == T)

/-- The concatenation, in input order, of the filtered stream lists of a
fixture sequence. -/
def concatStreams (l : List Resolved) : List String :=
  (l.map fixtureStreams).flatten

/-- Updating one key leaves lookups of that key mapped and every other key
untouched. -/
lemma lookupGroup_updateGroup (gs : List (String × GroupData)) (k T : String)
    (f : GroupData → GroupData) :
    lookupGroup (updateGroup gs k f) T =
      if k = T then (lookupGroup gs T).map f else lookupGroup gs T := by
  unfold lookupGroup updateGroup
  rw [List.find?_map]
  have hfun : ((fun p => p.1 == T) ∘ fun p : String × GroupData =>
      if p.1 == k then (p.1, f p.2) else p) = fun p : String × GroupData => p.1 == T := by
    funext p
    by_cases h : p.1 = k <;> simp [h]
  rw [hfun]
  cases hfind : List.find? (fun p : String × GroupData => p.1 == T) gs with
  | none => by_cases h : k = T <;> simp [h]
  | some q =>
    have hqT : q.1 = T := by simpa using List.find?_some hfind
    by_cases h : k = T
    · subst h
      simp [hqT]
    · have hqknot : ¬q.1 = k := fun hc => h (hc.symm.trans hqT)
      simp [h, hqknot]

/-- Appending a fresh single-key group affects only lookups of that key,
and only when the key was absent. -/
lemma lookupGroup_append_single (gs : List (String × GroupData)) (k T : String)
    (g : GroupData) :
    lookupGroup (gs ++ [(k, g)]) T =
      (lookupGroup gs T).or (if k = T then some g else none) := by
  unfold lookupGroup
  rw [List.find?_append]
  cases hfind : List.find? (fun p : String × GroupData => p.1 == T) gs with
  | some q => simp [hfind]
  | none =>
    by_cases h : k = T
    · simp [hfind, List.find?_cons, h]
    · have hk : (k == T) = false := by simp [h]
      simp [hfind, List.find?_cons, hk, h]

/-- One grouping step leaves every other title's group untouched. -/
lemma lookupGroup_groupStep_ne (gs : List (String × GroupData)) (m : Resolved) (T : String)
    (hT : m.title ≠ T) :
    lookupGroup (groupStep gs m) T = lookupGroup gs T := by
  unfold groupStep
  by_cases ht : m3u8Truthy m
  · simp only [ht, Bool.not_true, Bool.false_eq_true, if_false]
    by_cases hc : (lookupGroup gs m.title).isSome
    · simp only [hc, if_pos]
      rw [lookupGroup_updateGroup, if_neg hT]
    · simp only [hc, Bool.false_eq_true, if_false]
      rw [lookupGroup_updateGroup, if_neg hT, lookupGroup_append_single, if_neg hT]
      simp
  · simp [ht]

/-- One grouping step on a truthy fixture extends its own title's group
(creating it first when absent). -/
lemma lookupGroup_groupStep_eq (gs : List (String × GroupData)) (m : Resolved)
    (ht : m3u8Truthy m = true) :
    lookupGroup (groupStep gs m) m.title =
      match lookupGroup gs m.title with
      | some g => some { g with streams := g.streams ++ fixtureStreams m }
      | none => some { initGroup m with streams := fixtureStreams m } := by
  unfold groupStep
  simp only [ht, Bool.not_true, Bool.false_eq_true, if_false]
  cases hg : lookupGroup gs m.title with
  | some g =>
    simp only [hg, Option.isSome_some, if_pos]
    rw [lookupGroup_updateGroup, if_pos rfl, hg]
    rfl
  | none =>
    simp only [hg, Option.isSome_none, Bool.false_eq_true, if_false]
    rw [lookupGroup_updateGroup, if_pos rfl, lookupGroup_append_single, if_pos rfl, hg]
    rfl

/-- Full characterisation of the grouping fold: starting from any
accumulator, a title's final group is the accumulator's group extended by
the batch's filtered streams, or a fresh group built from the first
matching truthy fixture. -/
lemma foldl_groupStep_lookup (data : List Resolved) (gs : List (String × GroupData))
    (T : String) :
    lookupGroup (data.foldl groupStep gs) T =
      match lookupGroup gs T with
      | some g => some { g with streams := g.streams ++ concatStreams (relData data T) }
      | none =>
        match relData data T with
        | [] => none
        | m0 :: _ => some { initGroup m0 with streams := concatStreams (relData data T) } := by
  induction data generalizing gs with
  | nil =>
    cases hg : lookupGroup gs T <;> simp [relData, concatStreams, hg]
  | cons m rest ih =>
    rw [List.foldl_cons, ih]
    by_cases ht : m3u8Truthy m = true
    · by_cases hT : m.title = T
      · have hrel : relData (m :: rest) T = m :: relData rest T := by
          simp [relData, List.filter_cons, ht, hT]
        have hcs : concatStreams (m :: relData rest T) =
            fixtureStreams m ++ concatStreams (relData rest T) := by
          simp [concatStreams]
        rw [hrel, hcs]
        rw [show groupStep gs m = groupStep gs m from rfl]
        have hstep := lookupGroup_groupStep_eq gs m ht
        rw [hT] at hstep
        cases hg : lookupGroup gs T with
        | some g =>
          rw [hg] at hstep
          rw [hstep]
          simp [List.append_assoc]
        | none =>
          rw [hg] at hstep
          rw [hstep]
      · have hrel : relData (m :: rest) T = relData rest T := by
          have : (m.title == T) = false := by simp [hT]
          simp [relData, List.filter_cons, ht, this]
        rw [hrel, lookupGroup_groupStep_ne gs m T hT]
    · have ht2 : m3u8Truthy m = false := by
        cases h : m3u8Truthy m
        · rfl
        · exact absurd h ht
      have hrel : relData (m :: rest) T = relData rest T := by
        simp [relData, List.filter_cons, ht2]
      have hstep : groupStep gs m = gs := by
        simp [groupStep, ht2]
      rw [hrel, hstep]

/-- The empty fuzzy-matching oracle: with the empty candidate list (every
counterexample below uses an empty catalog) `difflib.get_close_matches`
returns no matches, which this function models exactly. -/
def noCloseMatches : String → List String → List String := fun _ _ => []

/-- First fixture of the C10 counterexample: shares its title with the
second but has no streams (falsy `m3u8`). -/
def cxC10a : Resolved :=
  { title := "A v B", url := some "u", image := some "i1", date := some "d1",
    league := none, embed := none, m3u8 := none, home_score := none, away_score := none }

/-- Second fixture of the C10 counterexample: same title, truthy stream
list, different metadata. -/
def cxC10b : Resolved :=
  { title := "A v B", url := some "u", image := some "i2", date := some "d2",
    league := none, embed := none, m3u8 := some ["https://s/manifest/0.m3u8"],
    home_score := some 1, away_score := none }

/-- C10 counterexample: the claim says the emitted group's metadata comes
from the first fixture with that title in input order, but a leading
fixture with a falsy `m3u8` is skipped by the grouping loop entirely, so
the published date comes from the second fixture. -/
theorem c10_counterexample :
    cxC10a.title = "A v B" ∧ cxC10a.date = some "d1" ∧ cxC10b.title = "A v B" ∧
    (process_matches_to_json noCloseMatches [cxC10a, cxC10b] []
        (fun _ => none)).map MRecord.date = ["d2"] :=
  ⟨rfl, rfl, rfl, rfl⟩

/-- C10 as amended: a title's group metadata (image, date, league, home
score, away score) comes exclusively from the first fixture with that
title whose `m3u8` value is truthy (non-null, non-empty) — fixtures with
falsy `m3u8` are skipped entirely — and the group's stream list is the
concatenation, in input order, of every matching fixture's filtered
streams. -/
theorem c10_group_from_first_truthy_fixture (data : List Resolved) (T : String) :
    lookupGroup (buildGroups data) T =
      match relData data T with
      | [] => none
      | m0 :: _ => some { initGroup m0 with streams := concatStreams (relData data T) } := by
  have h := foldl_groupStep_lookup data [] T
  have h0 : lookupGroup [] T = none := rfl
  rw [h0] at h
  exact h

/-- A fixture's filtered streams all carry the manifest marker and the
referer suffix. -/
lemma fixtureStreams_shape (m : Resolved) (u : String) (hu : u ∈ fixtureStreams m) :
    ∃ core, u = core ++ referer ∧ strContains core "/manifest/0.m3u8" = true := by
  unfold fixtureStreams at hu
  rcases List.mem_filterMap.mp hu with ⟨url, _, hurl⟩
  by_cases hc : strContains (pyStripS (takeBeforeFirst "|" url)) "/manifest/0.m3u8" = true
  · rw [if_pos hc] at hurl
    injection hurl with he
    exact ⟨pyStripS (takeBeforeFirst "|" url), he.symm, hc⟩
  · rw [if_neg hc] at hurl
    cases hurl

/-- Every stream stored in any group of the grouping fold has the filtered
shape, provided the accumulator's streams already do. -/
lemma buildGroups_streams_shape (data : List Resolved) (gs : List (String × GroupData))
    (hgs : ∀ p ∈ gs, ∀ u ∈ p.2.streams,
      ∃ core, u = core ++ referer ∧ strContains core "/manifest/0.m3u8" = true) :
    ∀ p ∈ data.foldl groupStep gs, ∀ u ∈ p.2.streams,
      ∃ core, u = core ++ referer ∧ strContains core "/manifest/0.m3u8" = true := by
  induction data generalizing gs with
  | nil => exact hgs
  | cons m rest ih =>
    rw [List.foldl_cons]
    refine ih (groupStep gs m) ?_
    intro p hp u hu
    unfold groupStep at hp
    by_cases ht : m3u8Truthy m
    · simp only [ht, Bool.not_true, Bool.false_eq_true, if_false] at hp
      set base := if (lookupGroup gs m.title).isSome then gs
        else gs ++ [(m.title, initGroup m)] with hbase
      have hbase_ok : ∀ q ∈ base, ∀ v ∈ q.2.streams,
          ∃ core, v = core ++ referer ∧ strContains core "/manifest/0.m3u8" = true := by
        rw [hbase]
        by_cases hc : (lookupGroup gs m.title).isSome
        · simpa [hc] using hgs
        · simp only [hc, Bool.false_eq_true, if_false]
          intro q hq
          rcases List.mem_append.mp hq with hq | hq
          · exact hgs q hq
          · rcases List.mem_singleton.mp hq with rfl
            intro v hv
            simp [initGroup] at hv
      unfold updateGroup at hp
      rcases List.mem_map.mp hp with ⟨q, hq, hqp⟩
      by_cases hqt : q.1 = m.title
      · have : (q.1 == m.title) = true := by simp [hqt]
        rw [if_pos this] at hqp
        subst hqp
        simp only at hu
        rcases List.mem_append.mp hu with hu | hu
        · exact hbase_ok q hq u hu
        · exact fixtureStreams_shape m u hu
      · have : (q.1 == m.title) = false := by simp [hqt]
        rw [if_neg (by simp [this])] at hqp
        subst hqp
        exact hbase_ok q hq u hu
    · have ht2 : m3u8Truthy m = false := by
        cases h : m3u8Truthy m
        · rfl
        · exact absurd h ht
      rw [if_pos (by simp [ht2])] at hp
      exact hgs p hp u hu

/-- The C2 counterexample fixture: its title has the separator and its
stream list is truthy, but no URL carries the manifest marker. -/
def cxC2 : Resolved :=
  { title := "A v B", url := some "u", image := none, date := some "d1",
    league := none, embed := none, m3u8 := some ["https://x/a.m3u8"],
    home_score := some 7, away_score := none }

/-- C2 counterexample: the claim says a group all of whose stream URLs
fail the manifest filter never appears in the output, but the code only
requires a truthy `m3u8` to create the group and never re-checks the
filtered list, so a record with an empty `stream_urls` is published. -/
theorem c2_counterexample :
    (process_matches_to_json noCloseMatches [cxC2] [] (fun _ => none)).length = 1 ∧
    (process_matches_to_json noCloseMatches [cxC2] [] (fun _ => none)).map
      MRecord.stream_urls = [[]] ∧
    cxC2.m3u8 = some ["https://x/a.m3u8"] ∧
    strContains "https://x/a.m3u8" "/manifest/0.m3u8" = false :=
  ⟨rfl, rfl, rfl, rfl⟩

/-- C2 as amended: the aggregator emits a record for a title group if and
only if the title contains the literal `v` separator and some fixture of
that title has a truthy (non-null, non-empty) stream list; the manifest
filter only selects which URLs appear in the record — every published
stream URL does carry the manifest marker (plus the referer suffix), but
the filtered list may be empty and the record is emitted regardless. -/
theorem c2_record_emitted_iff (closeO : String → List String → List String)
    (data : List Resolved) (logos : List LogoEntry)
    (manual_logos : String → Option String) :
    process_matches_to_json closeO data logos manual_logos =
      ((buildGroups data).filter (fun p => strContains p.1 " v ")).map
        (emitGroup closeO logos manual_logos) ∧
    (∀ T, (T ∈ ((buildGroups data).filter
        (fun p => strContains p.1 " v ")).map Prod.fst) ↔
      (strContains T " v " = true ∧ ∃ m ∈ data, m.title = T ∧ m3u8Truthy m = true)) ∧
    (∀ r ∈ process_matches_to_json closeO data logos manual_logos, ∀ u ∈ r.stream_urls,
      ∃ core, u = core ++ referer ∧ strContains core "/manifest/0.m3u8" = true) := by
  have hchar := fun T => foldl_groupStep_lookup data [] T
  refine ⟨rfl, ?_, ?_⟩
  · intro T
    constructor
    · intro hT
      rcases List.mem_map.mp hT with ⟨p, hpf, hpT⟩
      rcases List.mem_filter.mp hpf with ⟨hpg, hpv⟩
      refine ⟨hpT ▸ hpv, ?_⟩
      have hsome : (List.find? (fun q : String × GroupData => q.1 == T)
          (buildGroups data)).isSome := by
        refine List.find?_isSome.mpr ⟨p, hpg, ?_⟩
        simp [hpT]
      have hl : (lookupGroup (buildGroups data) T).isSome := by
        unfold lookupGroup
        cases hf : List.find? (fun q : String × GroupData => q.1 == T)
            (buildGroups data) with
        | none => rw [hf] at hsome; cases hsome
        | some q => simp
      have hc := hchar T
      rw [show List.foldl groupStep [] data = buildGroups data from rfl] at hc
      rw [show lookupGroup ([] : List (String × GroupData)) T = none from rfl] at hc
      cases hrel : relData data T with
      | nil =>
        rw [hc, hrel] at hl
        cases hl
      | cons m0 tl =>
        have hm0 : m0 ∈ relData data T := by rw [hrel]; exact List.mem_cons_self _ _
        rcases List.mem_filter.mp hm0 with ⟨hm0d, hm0p⟩
        have hparts := hm0p
        simp only [Bool.and_eq_true] at hparts
        exact ⟨m0, hm0d, by simpa using hparts.2, hparts.1⟩
    · rintro ⟨hTv, m, hmd, hmT, hmt⟩
      have hrel : relData data T ≠ [] := by
        intro hnil
        have : m ∈ relData data T := by
          refine List.mem_filter.mpr ⟨hmd, ?_⟩
          simp [hmt, hmT]
        rw [hnil] at this
        cases this
      have hc := hchar T
      rw [show List.foldl groupStep [] data = buildGroups data from rfl] at hc
      rw [show lookupGroup ([] : List (String × GroupData)) T = none from rfl] at hc
      have hl : (lookupGroup (buildGroups data) T).isSome := by
        cases hrelc : relData data T with
        | nil => exact absurd hrelc hrel
        | cons m0 tl => rw [hc, hrelc]; rfl
      unfold lookupGroup at hl
      cases hf : List.find? (fun q : String × GroupData => q.1 == T)
          (buildGroups data) with
      | none => rw [hf] at hl; cases hl
      | some q =>
        have hqg : q ∈ buildGroups data := List.mem_of_find?_eq_some hf
        have hqT : q.1 = T := by simpa using List.find?_some hf
        refine List.mem_map.mpr ⟨q, List.mem_filter.mpr ⟨hqg, ?_⟩, hqT⟩
        rw [hqT]
        exact hTv
  · intro r hr u hu
    rcases List.mem_map.mp hr with ⟨p, hpf, hpr⟩
    rcases List.mem_filter.mp hpf with ⟨hpg, _⟩
    have hru : r.stream_urls = p.2.streams := by
      rw [← hpr]
      rfl
    rw [hru] at hu
    exact buildGroups_streams_shape data [] (by intro q hq; cases hq) p hpg u hu

/-- Witness for C2: at a concrete batch with one truthy fixture, the
emission criterion is met. -/
theorem c2_witness :
    strContains "A v B" " v " = true ∧
    ∃ m ∈ [cxC10b], m.title = "A v B" ∧ m3u8Truthy m = true :=
  ((c2_record_emitted_iff noCloseMatches [cxC10b] []
    (fun _ => none)).2.1 "A v B").mp (by decide)

/-- Looking up the normalized form of any alias key recovers that key's
canonical name (keys are already normalized, except the apostrophe
variant whose normalized form is itself a key with the same value). -/
lemma alias_lookup_normalized :
    ∀ p ∈ KNOWN_ALIASES,
      List.lookup (normalize_string p.1) KNOWN_ALIASES = some p.2 := by decide

/-- When a canonical name's normalized form is itself an alias key, its
canonical value normalizes to the same string (the table's only such
entry maps `inter` to itself). -/
lemma alias_canon_stable :
    ∀ p ∈ KNOWN_ALIASES,
      (List.lookup (normalize_string p.2) KNOWN_ALIASES).all
        (fun c2 => normalize_string c2 == normalize_string p.2) = true := by decide

/-- The override map of the C7 counterexample: only the alias key itself
is present. -/
def cxC7Manual : String → Option String := fun s => if s = "wolves" then some "X" else none

/-- C7 counterexample: the claim quantifies over every override mapping,
but when the override map binds the alias key itself, resolving the
alias returns that override while resolving the canonical full name
(absent from map and catalog) returns the empty string. -/
theorem c7_counterexample :
    ("wolves", "wolverhampton wanderers") ∈ KNOWN_ALIASES ∧
    find_logo_url noCloseMatches "wolves" "" [] cxC7Manual = "X" ∧
    find_logo_url noCloseMatches "wolverhampton wanderers" "" [] cxC7Manual = "" :=
  ⟨by decide, rfl, rfl⟩

/-- C7 as amended: for every alias-table pair, and for every catalog and
override mapping in which the alias's normalized key is not itself
bound, resolving the alias yields exactly the same URL as resolving the
canonical full name directly. -/
theorem c7_alias_resolves_like_canonical (closeO : String → List String → List String)
    (league : String) (logos : List LogoEntry) (manual_logos : String → Option String)
    (a c : String) (hmem : (a, c) ∈ KNOWN_ALIASES)
    (hman : manual_logos (normalize_string a) = none) :
    find_logo_url closeO a league logos manual_logos =
      find_logo_url closeO c league logos manual_logos := by
  have hA : List.lookup (normalize_string a) KNOWN_ALIASES = some c :=
    alias_lookup_normalized (a, c) hmem
  have hB := alias_canon_stable (a, c) hmem
  unfold find_logo_url
  simp only [hman, hA]
  cases hmc : manual_logos (normalize_string c) with
  | some u => simp [hmc]
  | none =>
    simp only [hmc]
    cases hL : List.lookup (normalize_string c) KNOWN_ALIASES with
    | none => simp [hL]
    | some c2 =>
      have hc2 : normalize_string c2 = normalize_string c := by
        rw [hL] at hB
        simpa using hB
      simp only [hL, hc2, hmc]

/-- Witness for C7 at the alias `wolves` with an empty override map and an
empty catalog. -/
theorem c7_witness :
    find_logo_url noCloseMatches "wolves" "" [] (fun _ => none) =
      find_logo_url noCloseMatches "wolverhampton wanderers" "" [] (fun _ => none) :=
  c7_alias_resolves_like_canonical noCloseMatches "" [] (fun _ => none)
    "wolves" "wolverhampton wanderers" (by decide) rfl

/-- Starting with a longer string implies starting with any prefix of
it. -/
lemma strStartsWith_mono (t p q : String) (hpq : p.data.isPrefixOf q.data = true)
    (h : strStartsWith t q = true) : strStartsWith t p = true :=
  List.isPrefixOf_iff_prefix.mpr
    ((List.isPrefixOf_iff_prefix.mp hpq).trans (List.isPrefixOf_iff_prefix.mp h))

/-- A string starting with a slash starts with no `http` scheme text. -/
lemma startsWith_slash_not_http (t : String) (h : strStartsWith t "/" = true) :
    strStartsWith t "http" = false := by
  rcases List.isPrefixOf_iff_prefix.mp h with ⟨r, hr⟩
  show "http".data.isPrefixOf t.data = false
  rw [← hr]
  simp [List.isPrefixOf]

/-- Prepending `https:` to a protocol-relative string yields an `https://`
URL. -/
lemma https_prepend_protorel (t : String) (h : strStartsWith t "//" = true) :
    strStartsWith ("https:" ++ t) "https://" = true := by
  rcases List.isPrefixOf_iff_prefix.mp h with ⟨r, hr⟩
  show "https://".data.isPrefixOf ("https:" ++ t).data = true
  rw [String.data_append, ← hr]
  simp [List.isPrefixOf]

/-- Joining anything to the bare host keeps the scheme. -/
lemma base_host_starts (t : String) :
    strStartsWith ("https://hoofoot.com" ++ t) "https://" = true := by
  show "https://".data.isPrefixOf ("https://hoofoot.com" ++ t).data = true
  rw [String.data_append]
  refine List.isPrefixOf_iff_prefix.mpr ?_
  exact (List.isPrefixOf_iff_prefix.mp (by decide :
    ("https://".data.isPrefixOf "https://hoofoot.com".data) = true)).trans
    (List.prefix_append _ _)

/-- Joining anything to the host root keeps the scheme. -/
lemma base_root_starts (t : String) :
    strStartsWith ("https://hoofoot.com/" ++ t) "https://" = true := by
  show "https://".data.isPrefixOf ("https://hoofoot.com/" ++ t).data = true
  rw [String.data_append]
  refine List.isPrefixOf_iff_prefix.mpr ?_
  exact (List.isPrefixOf_iff_prefix.mp (by decide :
    ("https://".data.isPrefixOf "https://hoofoot.com/".data) = true)).trans
    (List.prefix_append _ _)

/-- The detected scheme is absent whenever the first character is not a
letter (in particular for targets starting with a slash or a colon). -/
lemma schemeSplit_head_not_alpha (t : String) (c : Char) (r : List Char)
    (hd : t.data = c :: r) (hc : c.isAlpha = false) : schemeSplit t = none := by
  unfold schemeSplit
  rw [hd]
  by_cases hcc : c = ':'
  · subst hcc
    rw [subFind, if_pos (by simp [List.isPrefixOf])]
  · have hpre : ([':'].isPrefixOf (c :: r)) = false := by
      simp [List.isPrefixOf]
      exact fun h => hcc h.symm
    rw [subFind, if_neg (by simp [hpre])]
    cases hsf : subFind [':'] r with
    | none => simp [hsf]
    | some pq => simp [hsf, hc]

/-- Joining under the bare host keeps the whole base host as a prefix. -/
lemma host_prefix_append (t : String) :
    strStartsWith ("https://hoofoot.com" ++ t) "https://hoofoot.com" = true := by
  show "https://hoofoot.com".data.isPrefixOf ("https://hoofoot.com" ++ t).data = true
  rw [String.data_append]
  exact List.isPrefixOf_iff_prefix.mpr (List.prefix_append _ _)

/-- Joining under the host root keeps the base host as a prefix. -/
lemma host_root_prefix_append (t : String) :
    strStartsWith ("https://hoofoot.com/" ++ t) "https://hoofoot.com" = true := by
  show "https://hoofoot.com".data.isPrefixOf ("https://hoofoot.com/" ++ t).data = true
  rw [String.data_append]
  refine List.isPrefixOf_iff_prefix.mpr ?_
  exact (List.isPrefixOf_iff_prefix.mp (by decide :
    ("https://hoofoot.com".data.isPrefixOf "https://hoofoot.com/".data) = true)).trans
    (List.prefix_append _ _)

/-- Every path join lands under the base host. -/
lemma joinPath_host (p : String) :
    strStartsWith (joinPath p) "https://hoofoot.com" = true := by
  unfold joinPath
  by_cases h0 : p = ""
  · rw [if_pos h0]
    decide
  · rw [if_neg h0]
    by_cases h1 : strStartsWith p "/" = true
    · rw [if_pos h1]
      exact host_prefix_append p
    · rw [if_neg h1]
      exact host_root_prefix_append p

/-- Every path join is scheme-qualified. -/
lemma joinPath_starts (p : String) :
    strStartsWith (joinPath p) "https://" = true :=
  strStartsWith_mono _ "https://" "https://hoofoot.com" (by decide) (joinPath_host p)

/-- A root-relative path joins to the host. -/
lemma urljoin_slash_eq (t : String) (h1 : strStartsWith t "//" = false)
    (h2 : strStartsWith t "/" = true) :
    urljoin_base t = "https://hoofoot.com" ++ t := by
  have hne : t ≠ "" := by
    intro hteq
    rw [hteq] at h2
    simp [strStartsWith] at h2
  rcases List.isPrefixOf_iff_prefix.mp h2 with ⟨r, hr⟩
  have hsch : schemeSplit t = none :=
    schemeSplit_head_not_alpha t '/' r (by rw [← hr]; rfl) (by decide)
  unfold urljoin_base
  rw [if_neg hne]
  simp only [hsch]
  rw [if_neg (by simp [h1])]
  unfold joinPath
  rw [if_neg hne, if_pos h2]

/-- A bare schemeless path (no leading slash) joins to the host root. -/
lemma urljoin_bare_eq (t : String) (h2 : strStartsWith t "/" = false)
    (hsch : schemeSplit t = none) (hne : t ≠ "") :
    urljoin_base t = "https://hoofoot.com/" ++ t := by
  have hc : strStartsWith t "//" = false := by
    by_cases hx : strStartsWith t "//" = true
    · rw [strStartsWith_mono t "/" "//" (by decide) hx] at h2
      cases h2
    · simpa using hx
  unfold urljoin_base
  rw [if_neg hne]
  simp only [hsch]
  rw [if_neg (by simp [hc])]
  unfold joinPath
  rw [if_neg hne, if_neg (by simp [h2])]

/-- The join either produces a scheme-qualified URL or passes a target
carrying its own non-`https` scheme through unchanged, exactly as
urllib does. -/
lemma urljoin_base_cases (t : String) :
    strStartsWith (urljoin_base t) "https://" = true ∨
    ∃ sr, schemeSplit t = some sr ∧ sr.1 ≠ "https" ∧ urljoin_base t = t := by
  by_cases hne : t = ""
  · left
    rw [hne]
    decide
  · cases hsch : schemeSplit t with
    | none =>
      left
      unfold urljoin_base
      rw [if_neg hne]
      simp only [hsch]
      by_cases hps : strStartsWith t "//" = true
      · rw [if_pos hps]
        exact https_prepend_protorel t hps
      · rw [if_neg hps]
        exact joinPath_starts t
    | some sr =>
      by_cases hs : sr.1 = "https"
      · left
        unfold urljoin_base
        rw [if_neg hne]
        simp only [hsch]
        rw [if_neg (by simp [hs])]
        by_cases hps : strStartsWith sr.2 "//" = true
        · rw [if_pos hps]
          exact https_prepend_protorel sr.2 hps
        · rw [if_neg hps]
          exact joinPath_starts sr.2
      · right
        refine ⟨sr, rfl, hs, ?_⟩
        unfold urljoin_base
        rw [if_neg hne]
        simp only [hsch]
        rw [if_pos hs]

/-- Every URL `normalize_url` returns is scheme-qualified, or was passed
through because the stripped target already starts with the text `http`,
or is the stripped target passed through by the join because it carries
its own non-`https` scheme. -/
lemma normalize_url_starts (s u : String) (h : normalize_url s = some u) :
    strStartsWith u "https://" = true ∨ strStartsWith u "http" = true ∨
    ∃ sr, schemeSplit u = some sr ∧ sr.1 ≠ "https" ∧ u = pyStripS s := by
  unfold normalize_url at h
  by_cases hs : s = ""
  · rw [if_pos hs] at h
    cases h
  · rw [if_neg hs] at h
    by_cases h1 : strStartsWith (pyStripS s) "//" = true
    · rw [if_pos h1] at h
      injection h with hu
      subst hu
      exact Or.inl (https_prepend_protorel _ h1)
    · rw [if_neg h1] at h
      by_cases h2 : strStartsWith (pyStripS s) "/" = true
      · rw [if_pos h2] at h
        injection h with hu
        subst hu
        rcases urljoin_base_cases (pyStripS s) with hx | ⟨sr, ha, hb, hc⟩
        · exact Or.inl hx
        · exact Or.inr (Or.inr ⟨sr, by rw [hc]; exact ha, hb, hc⟩)
      · rw [if_neg h2] at h
        by_cases h3 : strStartsWith (pyStripS s) "http" = true
        · rw [if_neg (by simp [h3])] at h
          injection h with hu
          subst hu
          exact Or.inr (Or.inl h3)
        · rw [if_pos (by simp [Bool.not_eq_true] at h3; simp [h3])] at h
          injection h with hu
          subst hu
          rcases urljoin_base_cases (pyStripS s) with hx | ⟨sr, ha, hb, hc⟩
          · exact Or.inl hx
          · exact Or.inr (Or.inr ⟨sr, by rw [hc]; exact ha, hb, hc⟩)

/-- Provenance of every candidate the lister returns: a heading was
present (its stripped text, possibly empty, is the title) and a link
whose target mentions the query marker was normalized into the
candidate's URL. -/
lemma find_matches_shape (doc : ListingDoc) (r : Candidate)
    (h : r ∈ find_matches_from_doc doc) :
    ∃ c ∈ doc, ∃ href, c.h2Text = some r.title ∧ c.aHref = some href ∧
      strContains href "match=" = true ∧ r.url = normalize_url href := by
  unfold find_matches_from_doc at h
  rcases List.mem_filterMap.mp h with ⟨c, hcd, hc⟩
  have hcdoc : c ∈ doc := (List.mem_filter.mp hcd).1
  refine ⟨c, hcdoc, ?_⟩
  unfold candidateOf at hc
  split at hc
  · rename_i title href ht ha
    split at hc
    · rename_i hm
      injection hc with hcr
      subst hcr
      exact ⟨href, ht, ha, hm, rfl⟩
    · cases hc
  · cases hc

/-- The C8 counterexample document: one `port` container whose heading is
present but has empty stripped text (e.g. a heading holding only
whitespace), with a valid fixture link. -/
def cxC8Doc : ListingDoc :=
  [{ id := some "port1", h2Text := some "", aHref := some "x.html?match=1",
     imgSrc := none, info := none }]

/-- C8 counterexample: the claim says every returned candidate has a
non-empty title, but the lister only checks that a heading element
exists, not that its text is non-empty, so a candidate with the empty
title is returned (its URL is normalized as usual). -/
theorem c8_counterexample :
    (find_matches_from_html (fun _ => cxC8Doc) "page").map Candidate.title = [""] ∧
    (find_matches_from_html (fun _ => cxC8Doc) "page").map Candidate.url =
      [some "https://hoofoot.com/x.html?match=1"] :=
  ⟨rfl, rfl⟩

/-- C8 as amended: every candidate the lister returns carries the stripped
text of a present heading (which may be empty) as its title and the
normalization of a link target containing `match=` as its URL; that URL
is always present, and it is scheme-qualified unless the raw target is
passed through - either because it merely begins with the text `http`,
or because it carries its own non-`https` scheme, which the join leaves
unchanged.  Normalization behaves as the claim lists on the input
shapes: protocol-relative targets get `https:` prepended, root-relative
and bare schemeless non-`http`-prefixed targets are joined under the
fixed base host (hence scheme-qualified), targets already starting with
`http` pass through stripped, and targets bearing a foreign scheme pass
through stripped. -/
theorem c8_candidate_urls_scheme_qualified :
    (∀ (parseO : String → ListingDoc) (html : String) (r : Candidate),
      r ∈ find_matches_from_html parseO html →
      (∃ c ∈ parseO html, ∃ href, c.h2Text = some r.title ∧ c.aHref = some href ∧
        strContains href "match=" = true ∧ r.url = normalize_url href ∧
        ∀ u, normalize_url href = some u →
          strStartsWith u "https://" = true ∨ strStartsWith u "http" = true ∨
          ∃ sr, schemeSplit u = some sr ∧ sr.1 ≠ "https" ∧ u = pyStripS href) ∧
      r.url.isSome = true) ∧
    (∀ s : String, s ≠ "" →
      (strStartsWith (pyStripS s) "//" = true →
        normalize_url s = some ("https:" ++ pyStripS s) ∧
        strStartsWith ("https:" ++ pyStripS s) "https://" = true) ∧
      (strStartsWith (pyStripS s) "//" = false → strStartsWith (pyStripS s) "/" = true →
        ∃ u, normalize_url s = some u ∧
          strStartsWith u "https://hoofoot.com" = true ∧
          strStartsWith u "https://" = true) ∧
      (strStartsWith (pyStripS s) "/" = false → strStartsWith (pyStripS s) "http" = false →
        schemeSplit (pyStripS s) = none →
        ∃ u, normalize_url s = some u ∧
          strStartsWith u "https://hoofoot.com" = true ∧
          strStartsWith u "https://" = true) ∧
      (strStartsWith (pyStripS s) "//" = false → strStartsWith (pyStripS s) "/" = false →
        strStartsWith (pyStripS s) "http" = true →
        normalize_url s = some (pyStripS s)) ∧
      (strStartsWith (pyStripS s) "/" = false → strStartsWith (pyStripS s) "http" = false →
        ∀ sr, schemeSplit (pyStripS s) = some sr → sr.1 ≠ "https" →
          normalize_url s = some (pyStripS s))) := by
  constructor
  · intro parseO html r hr
    rcases find_matches_shape (parseO html) r hr with ⟨c, hcd, href, ht, ha, hm, hu⟩
    have hne : href ≠ "" := by
      intro he
      rw [he] at hm
      simp [strContains, subFind] at hm
    have hsome : (normalize_url href).isSome = true := by
      unfold normalize_url
      rw [if_neg hne]
      split
      · rfl
      · split
        · rfl
        · split
          · rfl
          · rfl
    refine ⟨⟨c, hcd, href, ht, ha, hm, hu, ?_⟩, by rw [hu]; exact hsome⟩
    intro u huu
    exact normalize_url_starts href u huu
  · intro s hs
    refine ⟨?_, ?_, ?_, ?_, ?_⟩
    · intro h1
      refine ⟨?_, https_prepend_protorel _ h1⟩
      unfold normalize_url
      rw [if_neg hs, if_pos h1]
    · intro h1 h2
      refine ⟨"https://hoofoot.com" ++ pyStripS s, ?_, host_prefix_append _,
        strStartsWith_mono _ "https://" "https://hoofoot.com" (by decide)
          (host_prefix_append _)⟩
      unfold normalize_url
      rw [if_neg hs, if_neg (by simp [h1]), if_pos h2, urljoin_slash_eq _ h1 h2]
    · intro h2 h3 hsch
      have h1 : strStartsWith (pyStripS s) "//" = false := by
        by_cases hx : strStartsWith (pyStripS s) "//" = true
        · rw [strStartsWith_mono _ "/" "//" (by decide) hx] at h2
          cases h2
        · simpa using hx
      by_cases hts : pyStripS s = ""
      · refine ⟨urljoin_base (pyStripS s), ?_, ?_, ?_⟩
        · unfold normalize_url
          rw [if_neg hs, if_neg (by simp [h1]), if_neg (by simp [h2]),
            if_pos (by simp [h3])]
        · rw [hts]
          decide
        · rw [hts]
          decide
      · refine ⟨"https://hoofoot.com/" ++ pyStripS s, ?_, host_root_prefix_append _,
          strStartsWith_mono _ "https://" "https://hoofoot.com" (by decide)
            (host_root_prefix_append _)⟩
        unfold normalize_url
        rw [if_neg hs, if_neg (by simp [h1]), if_neg (by simp [h2]),
          if_pos (by simp [h3]), urljoin_bare_eq _ h2 hsch hts]
    · intro h1 h2 h3
      unfold normalize_url
      rw [if_neg hs, if_neg (by simp [h1]), if_neg (by simp [h2]), if_neg (by simp [h3])]
    · intro h2 h3 sr hsch hs2
      have h1 : strStartsWith (pyStripS s) "//" = false := by
        by_cases hx : strStartsWith (pyStripS s) "//" = true
        · rw [strStartsWith_mono _ "/" "//" (by decide) hx] at h2
          cases h2
        · simpa using hx
      have hts : pyStripS s ≠ "" := by
        intro he
        rw [he] at hsch
        exact Option.noConfusion
          (show (none : Option (String × String)) = some sr from hsch)
      unfold normalize_url
      rw [if_neg hs, if_neg (by simp [h1]), if_neg (by simp [h2]), if_pos (by simp [h3])]
      unfold urljoin_base
      rw [if_neg hts]
      simp only [hsch]
      rw [if_pos hs2]

/-- Witness for C8: the pass-through and protocol-relative shapes at
concrete inputs, including a scheme-bearing target the join leaves
unchanged. -/
theorem c8_witness :
    normalize_url "//cdn/img.png" = some "https://cdn/img.png" ∧
    normalize_url "https://x/y" = some "https://x/y" ∧
    normalize_url "javascript:match=1" = some "javascript:match=1" :=
  ⟨((c8_candidate_urls_scheme_qualified.2 "//cdn/img.png" (by decide)).1 rfl).1,
   (c8_candidate_urls_scheme_qualified.2 "https://x/y" (by decide)).2.2.2.1 rfl rfl rfl,
   (c8_candidate_urls_scheme_qualified.2 "javascript:match=1" (by decide)).2.2.2.2 rfl
     rfl ("javascript", "match=1") rfl (by decide)⟩
